import Mathlib

/-!
# k-nearest-neighbours classifier (`classifier/knn.go`)

A shallow embedding of `NewKNNClassifier`, `Train` and `Classify`, together with the
collaborators they call (`knnutilities.Euclidean`, the bounded neighbour collection, the
dataset and row contracts), followed by theorems about them.

Conventions of the embedding:

* Go `int` values that can be negative (`k`, feature counts) are `Int`; the row count of a
  dataset is a length and is a `Nat`.
* `float64` feature values are rationals (exact arithmetic).  A distance is the square root
  of a rational, kept as its radicand, or the "unbounded" sentinel; comparing two square
  roots is comparing their radicands.
* Go's `(value, error)` results are `Except KNNError value`; a method with a pointer receiver
  that writes to it returns the receiver's new state.
* The label type `target.Target` is a type parameter `τ`.
* A second set of definitions (`Float64`, `Row64`, `Classify64`, ...) follows `Classify` on
  float64 values that may be NaN or infinite, with the distance function as a parameter; on
  finite values and with `Euclidean64` they coincide with the first set (`Classify64_finite`).
-/

set_option autoImplicit false

/-! ## Distances -/

/-- A distance in exact arithmetic: `sqrt q` stands for the square root of the rational `q`,
`unbounded` for the sentinel that is larger than every finite distance. -/
inductive Distance where
  | sqrt (radicand : ℚ)
  | unbounded
  deriving DecidableEq

namespace Distance

/-- The position of a distance on the extended rational line: square roots are ordered as
their radicands, the sentinel is on top. -/
def key : Distance → WithTop ℚ
  | sqrt q => (q : WithTop ℚ)
  | unbounded => ⊤

instance : LinearOrder Distance :=
  LinearOrder.lift' key (by
    intro a b h
    cases a <;> cases b <;> simp [key] at h ⊢
    exact h)

end Distance

/-! ## Errors, rows and datasets -/

/-- The error values of `knn.go` (one constructor per error struct), the two conditions of the
neighbour collection, and `external` for an error produced by the dataset collaborator. -/
inductive KNNError where
  | EmptyTrainingDatasetError
  | UntrainedClassifierError
  | InvalidNumberOfNeighboursError (k : Int)
  | InvalidFloatFeatureDatasetError
  | RowLengthMismatchError (numTestRowFeatures numTrainingSetFeatures : Int)
  | NonFloatFeaturesTrainingSetError
  | NonFloatFeaturesTestRowError
  | InvalidCapacity (k : Int)
  | EmptyCollection
  | external (code : Nat)
  deriving DecidableEq

/-- Modelled from the spec: the row collaborator (`dataset/row`), through the contract the
classifier consumes: feature count, numeric flag, label, and the feature values returned by
`UnsafeFloatFeatureValues()`. -/
structure Row (τ : Type) where
  NumFeatures : Int
  AllFeaturesFloats : Bool
  Target : τ
  UnsafeFloatFeatureValues : List ℚ

/-- Modelled from the spec: the dataset collaborator (`dataset/dataset`), through the contract
the classifier consumes: numeric flag, feature count, row count and row access by index, which
may fail. -/
structure Dataset (τ : Type) where
  AllFeaturesFloats : Bool
  NumFeatures : Int
  NumRows : Nat
  Row : Nat → Except KNNError (Row τ)

/-! ## `knnutilities` -/

namespace knnutilities

/-- Sum of the squared per-element differences of two vectors, elements paired in order.  The
two vectors have the same length by the caller's precondition; past the end of the shorter one
nothing is added. -/
def sumSquaredDifferences : List ℚ → List ℚ → ℚ
  | a :: as, b :: bs => (a - b) ^ 2 + sumSquaredDifferences as bs
  | _, _ => 0

/-- The true Euclidean distance of two vectors: the square root of the sum of the squared
per-element differences. -/
def trueDistance (a b : List ℚ) : Distance :=
  Distance.sqrt (sumSquaredDifferences a b)

/-- The running sum of `Euclidean`: `acc` is the partial sum so far.  After adding an element,
if the square root of the partial sum meets or exceeds `bound` the loop stops and returns it. -/
def euclideanFrom (bound : Distance) : ℚ → List ℚ → List ℚ → Distance
  | acc, a :: as, b :: bs =>
      if bound ≤ Distance.sqrt (acc + (a - b) ^ 2) then Distance.sqrt (acc + (a - b) ^ 2)
      else euclideanFrom bound (acc + (a - b) ^ 2) as bs
  | acc, _, _ => Distance.sqrt acc

/-- Modelled from the spec: `knnutilities.Euclidean`, which is not among the sources.  It
computes the running sum of squared per-element differences; as soon as the square root of the
partial sum meets or exceeds `bound` it terminates early with a value that is at least `bound`
(here, the square root of the partial sum); otherwise it returns the true Euclidean
distance. -/
def Euclidean (a b : List ℚ) (bound : Distance) : Distance :=
  euclideanFrom bound 0 a b

/-- Modelled from the spec: a neighbour entry, a label with its distance. -/
structure NeighbourEntry (τ : Type) where
  label : τ
  distance : Distance

/-- Modelled from the spec: the state of the bounded neighbour collection, its capacity `k`
and the retained entries, kept in the order they were inserted. -/
structure KNNTargetCollection (τ : Type) where
  k : Int
  entries : List (NeighbourEntry τ)

/-- Modelled from the spec: construction of the collection, which fails with the
invalid-capacity condition if `k < 1`. -/
def NewKNNTargetCollection {τ : Type} (k : Int) : Except KNNError (KNNTargetCollection τ) :=
  if k < 1 then .error (.InvalidCapacity k) else .ok { k := k, entries := [] }

/-- The largest distance among the entries of a non-empty list (`unbounded` for `[]`). -/
def largestDistance {τ : Type} : List (NeighbourEntry τ) → Distance
  | [] => Distance.unbounded
  | e :: es => es.foldl (fun m x => max m x.distance) e.distance

/-- Modelled from the spec: `MaxDistance()`, the distance of the worst retained entry if the
collection is full, the unbounded sentinel if fewer than `k` entries are held. -/
def KNNTargetCollection.MaxDistance {τ : Type} (c : KNNTargetCollection τ) : Distance :=
  if (c.entries.length : Int) < c.k then Distance.unbounded else largestDistance c.entries

/-- Removal of the worst entry: the entry with the largest distance, and among several with
that distance the one inserted last. -/
def evictWorst {τ : Type} : List (NeighbourEntry τ) → List (NeighbourEntry τ)
  | [] => []
  | e :: es =>
      if es.all (fun x => decide (x.distance < e.distance)) then es else e :: evictWorst es

/-- Modelled from the spec: `Insert(label, distance)`.  With fewer than `k` entries the entry
is always added; when full it is added only if its distance is strictly less than the current
maximum, and the current worst entry is evicted; a tie at the maximum changes nothing. -/
def KNNTargetCollection.Insert {τ : Type} (c : KNNTargetCollection τ) (label : τ)
    (distance : Distance) : KNNTargetCollection τ :=
  if (c.entries.length : Int) < c.k then
    { c with entries := c.entries ++ [⟨label, distance⟩] }
  else if distance < largestDistance c.entries then
    { c with entries := evictWorst c.entries ++ [⟨label, distance⟩] }
  else c

/-- Number of entries of `es` that carry the label `l`. -/
def countLabel {τ : Type} [DecidableEq τ] (es : List (NeighbourEntry τ)) (l : τ) : Nat :=
  es.countP (fun e => decide (e.label = l))

/-- Majority label of a non-empty entry list `e :: es`: a label with the highest count; among
equally frequent labels the one encountered first. -/
def majorityLabel {τ : Type} [DecidableEq τ] (e : NeighbourEntry τ)
    (es : List (NeighbourEntry τ)) : τ :=
  es.foldl
    (fun best x => if countLabel (e :: es) best < countLabel (e :: es) x.label then x.label
      else best)
    e.label

/-- Modelled from the spec: `Vote()`, the majority label of the retained entries, failing with
the empty-collection condition if nothing is retained.  Tie-break rule chosen here: among
equally frequent labels, the first encountered in insertion order. -/
def KNNTargetCollection.Vote {τ : Type} [DecidableEq τ] (c : KNNTargetCollection τ) :
    Except KNNError τ :=
  match c.entries with
  | [] => .error .EmptyCollection
  | e :: es => .ok (majorityLabel e es)

end knnutilities

/-! ## `classifier` -/

namespace classifier

open knnutilities

/-- The classifier: `k` and the reference to the training data (`none` is Go's `nil`). -/
structure kNNClassifier (τ : Type) where
  k : Int
  trainingData : Option (Dataset τ)

/-- `NewKNNClassifier(k)`. -/
def NewKNNClassifier {τ : Type} (k : Int) : Except KNNError (kNNClassifier τ) :=
  if k < 1 then .error (.InvalidNumberOfNeighboursError k)
  else .ok { k := k, trainingData := none }

/-- `Train(trainingData)`: the classifier after the call, and the returned error (`none` is
Go's `nil` error). -/
def Train {τ : Type} (classifier : kNNClassifier τ) (trainingData : Dataset τ) :
    kNNClassifier τ × Option KNNError :=
  if !trainingData.AllFeaturesFloats then
    (classifier, some .NonFloatFeaturesTrainingSetError)
  else if trainingData.NumRows = 0 then
    (classifier, some .EmptyTrainingDatasetError)
  else
    ({ classifier with trainingData := some trainingData }, none)

/-- The scan loop of `Classify`: `remaining` iterations are left, the next row index is `i`. -/
def classifyLoop {τ : Type} (trainingData : Dataset τ) (testRowFeatureValues : List ℚ) :
    Nat → Nat → KNNTargetCollection τ → Except KNNError (KNNTargetCollection τ)
  | 0, _, nearestNeighbours => .ok nearestNeighbours
  | remaining + 1, i, nearestNeighbours =>
      match trainingData.Row i with
      | .error err => .error err
      | .ok trainingRow =>
          let distance := Euclidean testRowFeatureValues trainingRow.UnsafeFloatFeatureValues
            nearestNeighbours.MaxDistance
          if distance < nearestNeighbours.MaxDistance then
            classifyLoop trainingData testRowFeatureValues remaining (i + 1)
              (nearestNeighbours.Insert trainingRow.Target distance)
          else
            classifyLoop trainingData testRowFeatureValues remaining (i + 1) nearestNeighbours

/-- The part of `Classify` up to the end of the scan: the validation of the query, the
construction of the collection and the loop over the training rows. -/
def classifyScan {τ : Type} (classifier : kNNClassifier τ) (testRow : Row τ) :
    Except KNNError (KNNTargetCollection τ) :=
  match classifier.trainingData with
  | none => .error .UntrainedClassifierError
  | some trainingData =>
      if testRow.NumFeatures ≠ trainingData.NumFeatures then
        .error (.RowLengthMismatchError testRow.NumFeatures trainingData.NumFeatures)
      else if !testRow.AllFeaturesFloats then
        .error .NonFloatFeaturesTestRowError
      else
        match NewKNNTargetCollection classifier.k with
        | .error err => .error err
        | .ok nearestNeighbours =>
            classifyLoop trainingData testRow.UnsafeFloatFeatureValues trainingData.NumRows 0
              nearestNeighbours

/-- `Classify(testRow)`: the scan, then the vote of the collection it leaves. -/
def Classify {τ : Type} [DecidableEq τ] (classifier : kNNClassifier τ) (testRow : Row τ) :
    Except KNNError τ :=
  match classifyScan classifier testRow with
  | .error err => .error err
  | .ok nearestNeighbours => nearestNeighbours.Vote

end classifier

/-! ## Concrete data used to exercise the definitions -/

namespace classifier

/-- A dataset held in memory: row `i` is the `i`-th element of `rows`, and access outside the
list fails. -/
def datasetOfRows {τ : Type} (numFeatures : Int) (allFloats : Bool) (rows : List (Row τ)) :
    Dataset τ where
  AllFeaturesFloats := allFloats
  NumFeatures := numFeatures
  NumRows := rows.length
  Row := fun i =>
    match rows[i]? with
    | some r => .ok r
    | none => .error (.external i)

/-- A numeric row with the given label and feature values. -/
def floatRow {τ : Type} (label : τ) (values : List ℚ) : Row τ where
  NumFeatures := values.length
  AllFeaturesFloats := true
  Target := label
  UnsafeFloatFeatureValues := values

/-- Row `i` of a list of rows, and `fallback` beyond its end. -/
def rowAt {τ : Type} (rows : List (Row τ)) (fallback : Row τ) (i : Nat) : Row τ :=
  (rows[i]?).getD fallback

/-- The rows of the spec's scenarios: `([0,0], A)`, `([10,10], B)`, `([1,1], A)`. -/
def scenarioRows : List (Row String) :=
  [floatRow "A" [0, 0], floatRow "B" [10, 10], floatRow "A" [1, 1]]

/-- The training set of the spec's scenarios. -/
def scenarioDataset : Dataset String :=
  datasetOfRows 2 true scenarioRows

/-- Two rows with the same feature vector and different labels. -/
def duplicateRows : List (Row String) :=
  [floatRow "A" [0], floatRow "B" [0]]

/-- The dataset of `duplicateRows`. -/
def duplicateDataset : Dataset String :=
  datasetOfRows 1 true duplicateRows

/-- A dataset with no rows whose feature columns are not all numeric. -/
def emptyNonNumericDataset : Dataset String :=
  datasetOfRows 2 false []

/-- A dataset with no rows whose feature columns are all numeric. -/
def emptyNumericDataset : Dataset String :=
  datasetOfRows 2 true []

end classifier

/-! ## Notions used to state what the scan retains -/

namespace classifier

open knnutilities

/-- The neighbour entry of a training row for a query: the row's label with the true Euclidean
distance from the query's feature values to the row's. -/
def rowEntry {τ : Type} (q : List ℚ) (row : Row τ) : NeighbourEntry τ where
  label := row.Target
  distance := trueDistance q row.UnsafeFloatFeatureValues

/-- The state of the scan after the rows `0 .. i-1` (row `m` being `r m`) of a classifier with
capacity `K`: `idxs` lists, in increasing order, the indices of the rows whose entries the
collection holds.  While `i ≤ K` every row seen is held; from `K` rows on the collection holds
`K` entries, and every row seen that is not held is farther than each held row, or as far and
later. -/
structure ScanInv {τ : Type} (K : Nat) (q : List ℚ) (r : Nat → Row τ) (i : Nat)
    (nn : KNNTargetCollection τ) (idxs : List Nat) : Prop where
  k_eq : nn.k = (K : Int)
  entries_eq : nn.entries = idxs.map (fun m => rowEntry q (r m))
  sorted : idxs.Pairwise (fun m n => m < n)
  seen : ∀ m ∈ idxs, m < i
  initial : i ≤ K → idxs = List.range i
  full : K ≤ i → idxs.length = K
  nearest : ∀ j, j < i → j ∉ idxs → ∀ m ∈ idxs,
    (rowEntry q (r m)).distance < (rowEntry q (r j)).distance ∨
      ((rowEntry q (r m)).distance = (rowEntry q (r j)).distance ∧ m < j)

end classifier

/-! ## Calls on a classifier, and the scan seen step by step -/

namespace classifier

open knnutilities

/-- `Classify` as a call on its pointer receiver, in state-passing form: the body of `Classify`
with the receiver threaded through it; each exit gives the receiver as it stands there, and the
result (`(nil, err)` or the outcome of `Vote()`). -/
def ClassifyCall {τ : Type} [DecidableEq τ] (classifier : kNNClassifier τ) (testRow : Row τ) :
    kNNClassifier τ × Except KNNError τ :=
  match classifier.trainingData with
  | none => (classifier, .error .UntrainedClassifierError)
  | some trainingData =>
      if testRow.NumFeatures ≠ trainingData.NumFeatures then
        (classifier,
          .error (.RowLengthMismatchError testRow.NumFeatures trainingData.NumFeatures))
      else if !testRow.AllFeaturesFloats then
        (classifier, .error .NonFloatFeaturesTestRowError)
      else
        match NewKNNTargetCollection classifier.k with
        | .error err => (classifier, .error err)
        | .ok nearestNeighbours =>
            match classifyLoop trainingData testRow.UnsafeFloatFeatureValues
                trainingData.NumRows 0 nearestNeighbours with
            | .error err => (classifier, .error err)
            | .ok nearestNeighbours => (classifier, nearestNeighbours.Vote)

/-- A call made on a classifier after its construction. -/
inductive Call (τ : Type) where
  | train (trainingData : Dataset τ)
  | classify (testRow : Row τ)

/-- The classifier after one call. -/
def applyCall {τ : Type} [DecidableEq τ] (classifier : kNNClassifier τ) :
    Call τ → kNNClassifier τ
  | .train trainingData => (Train classifier trainingData).1
  | .classify testRow => (ClassifyCall classifier testRow).1

/-- The classifier after a sequence of calls, made in order. -/
def runCalls {τ : Type} [DecidableEq τ] (classifier : kNNClassifier τ)
    (calls : List (Call τ)) : kNNClassifier τ :=
  calls.foldl applyCall classifier

/-- The body of one iteration of the scan, once the training row has been read: the distance is
computed with the current `MaxDistance()` as bound, and the row is inserted if that distance is
strictly less than the bound; otherwise the collection is left as it is. -/
def classifyStep {τ : Type} (testRowFeatureValues : List ℚ) (trainingRow : Row τ)
    (nearestNeighbours : KNNTargetCollection τ) : KNNTargetCollection τ :=
  if Euclidean testRowFeatureValues trainingRow.UnsafeFloatFeatureValues
      nearestNeighbours.MaxDistance < nearestNeighbours.MaxDistance then
    nearestNeighbours.Insert trainingRow.Target
      (Euclidean testRowFeatureValues trainingRow.UnsafeFloatFeatureValues
        nearestNeighbours.MaxDistance)
  else nearestNeighbours

/-- What the spec asks of a distance function: it returns the true Euclidean distance when that
distance is below the bound, and some value at or above the bound otherwise. -/
def DistanceContract (distanceFunction : List ℚ → List ℚ → Distance → Distance) : Prop :=
  ∀ (a b : List ℚ) (bound : Distance),
    (trueDistance a b < bound → distanceFunction a b bound = trueDistance a b) ∧
    (bound ≤ trueDistance a b → bound ≤ distanceFunction a b bound)

/-- The distance function without early exit: every distance is computed in full, the bound
passed being the unbounded sentinel. -/
def noEarlyExit (distanceFunction : List ℚ → List ℚ → Distance → Distance) :
    List ℚ → List ℚ → Distance → Distance :=
  fun a b _ => distanceFunction a b Distance.unbounded

/-- The scan loop of `Classify` with the distance function as a parameter, recording in
`inserted` the sequence of entries passed to `Insert`. -/
def classifyLoopWith {τ : Type} (distanceFunction : List ℚ → List ℚ → Distance → Distance)
    (trainingData : Dataset τ) (testRowFeatureValues : List ℚ) :
    Nat → Nat → KNNTargetCollection τ → List (NeighbourEntry τ) →
      Except KNNError (KNNTargetCollection τ × List (NeighbourEntry τ))
  | 0, _, nearestNeighbours, inserted => .ok (nearestNeighbours, inserted)
  | remaining + 1, i, nearestNeighbours, inserted =>
      match trainingData.Row i with
      | .error err => .error err
      | .ok trainingRow =>
          let distance := distanceFunction testRowFeatureValues
            trainingRow.UnsafeFloatFeatureValues nearestNeighbours.MaxDistance
          if distance < nearestNeighbours.MaxDistance then
            classifyLoopWith distanceFunction trainingData testRowFeatureValues remaining (i + 1)
              (nearestNeighbours.Insert trainingRow.Target distance)
              (inserted ++ [⟨trainingRow.Target, distance⟩])
          else
            classifyLoopWith distanceFunction trainingData testRowFeatureValues remaining (i + 1)
              nearestNeighbours inserted

/-- The part of `Classify` up to the end of the scan, with the distance function as a
parameter: the final collection and the sequence of inserted entries. -/
def classifyScanWith {τ : Type} (distanceFunction : List ℚ → List ℚ → Distance → Distance)
    (classifier : kNNClassifier τ) (testRow : Row τ) :
    Except KNNError (KNNTargetCollection τ × List (NeighbourEntry τ)) :=
  match classifier.trainingData with
  | none => .error .UntrainedClassifierError
  | some trainingData =>
      if testRow.NumFeatures ≠ trainingData.NumFeatures then
        .error (.RowLengthMismatchError testRow.NumFeatures trainingData.NumFeatures)
      else if !testRow.AllFeaturesFloats then
        .error .NonFloatFeaturesTestRowError
      else
        match NewKNNTargetCollection classifier.k with
        | .error err => .error err
        | .ok nearestNeighbours =>
            classifyLoopWith distanceFunction trainingData testRow.UnsafeFloatFeatureValues
              trainingData.NumRows 0 nearestNeighbours []

/-- `Classify` with the distance function as a parameter. -/
def ClassifyWith {τ : Type} [DecidableEq τ]
    (distanceFunction : List ℚ → List ℚ → Distance → Distance)
    (classifier : kNNClassifier τ) (testRow : Row τ) : Except KNNError τ :=
  match classifyScanWith distanceFunction classifier testRow with
  | .error err => .error err
  | .ok (nearestNeighbours, _) => nearestNeighbours.Vote

/-- A dataset of two rows with four features each. -/
def fourFeatureDataset : Dataset String :=
  datasetOfRows 4 true [floatRow "A" [0, 0, 0, 0], floatRow "B" [1, 1, 1, 1]]

/-- A dataset that announces three rows with two features each, of which row 0 can be read
and every access from row 1 on fails with the collaborator's error 7. -/
def failingDataset : Dataset String where
  AllFeaturesFloats := true
  NumFeatures := 2
  NumRows := 3
  Row := fun i => if i = 0 then .ok (floatRow "A" [0, 0]) else .error (.external 7)

/-- The scenario rows in another order. -/
def permutedScenarioRows : List (Row String) :=
  [floatRow "A" [1, 1], floatRow "A" [0, 0], floatRow "B" [10, 10]]

/-- The dataset of `permutedScenarioRows`. -/
def permutedScenarioDataset : Dataset String :=
  datasetOfRows 2 true permutedScenarioRows

end classifier

/-! ## float64 values: NaN and the infinities

The definitions above take feature values in exact arithmetic.  The definitions of this
section follow `Classify` on float64 values that may be NaN or infinite, with the distance
function as a parameter: whatever a float64 implementation of `knnutilities.Euclidean`
computes (rounded or not) is one such function. -/

/-- A float64 value: a finite value, kept as the rational number it denotes, one of the two
infinities, or NaN. -/
inductive Float64 where
  | finite (value : ℚ)
  | posInf
  | negInf
  | nan
  deriving DecidableEq

/-- A float64 value returned by a distance computation: NaN, or a value that is not NaN, kept
as a `Distance` (`Distance.unbounded` is the float64 value +Inf). -/
inductive Float64Distance where
  | value (d : Distance)
  | nan
  deriving DecidableEq

namespace Float64

/-- IEEE 754 subtraction; on two finite values the exact difference. -/
def sub : Float64 → Float64 → Float64
  | finite a, finite b => finite (a - b)
  | nan, _ => nan
  | _, nan => nan
  | posInf, posInf => nan
  | negInf, negInf => nan
  | posInf, _ => posInf
  | negInf, _ => negInf
  | finite _, posInf => negInf
  | finite _, negInf => posInf

/-- IEEE 754 product of a value with itself; on a finite value the exact square. -/
def square : Float64 → Float64
  | finite a => finite (a ^ 2)
  | posInf => posInf
  | negInf => posInf
  | nan => nan

/-- IEEE 754 addition; on two finite values the exact sum. -/
def add : Float64 → Float64 → Float64
  | finite a, finite b => finite (a + b)
  | nan, _ => nan
  | _, nan => nan
  | posInf, negInf => nan
  | negInf, posInf => nan
  | posInf, _ => posInf
  | negInf, _ => negInf
  | finite _, posInf => posInf
  | finite _, negInf => negInf

/-- IEEE 754 square root, as a distance: NaN for NaN and for negative values, +Inf for +Inf. -/
def sqrt : Float64 → Float64Distance
  | finite a => if a < 0 then .nan else .value (Distance.sqrt a)
  | posInf => .value Distance.unbounded
  | negInf => .nan
  | nan => .nan

end Float64

namespace Float64Distance

/-- The float64 comparison `x >= bound`, which is false when `x` is NaN. -/
def ge (x : Float64Distance) (bound : Distance) : Bool :=
  match x with
  | value d => decide (bound ≤ d)
  | nan => false

/-- The value of a distance that is not NaN (and +Inf for NaN, which is never asked for). -/
def toDistance : Float64Distance → Distance
  | value d => d
  | nan => Distance.unbounded

/-- A computed distance is finite when it is neither NaN nor +Inf. -/
def IsFinite (x : Float64Distance) : Prop :=
  ∃ d, x = value d ∧ d < Distance.unbounded

end Float64Distance

/-- Modelled from the spec: the row collaborator with float64 feature values. -/
structure Row64 (τ : Type) where
  NumFeatures : Int
  AllFeaturesFloats : Bool
  Target : τ
  UnsafeFloatFeatureValues : List Float64

/-- Modelled from the spec: the dataset collaborator with float64 feature values. -/
structure Dataset64 (τ : Type) where
  AllFeaturesFloats : Bool
  NumFeatures : Int
  NumRows : Nat
  Row : Nat → Except KNNError (Row64 τ)

namespace knnutilities

/-- The running sum of `Euclidean64`: `acc` is the partial sum so far. -/
def euclidean64From (bound : Distance) : Float64 → List Float64 → List Float64 → Float64Distance
  | acc, a :: as, b :: bs =>
      if (Float64.sqrt (acc.add (a.sub b).square)).ge bound then
        Float64.sqrt (acc.add (a.sub b).square)
      else euclidean64From bound (acc.add (a.sub b).square) as bs
  | acc, _, _ => Float64.sqrt acc

/-- Modelled from the spec: `knnutilities.Euclidean` on float64 values.  The special values are
treated as IEEE 754 does; on finite values every operation is exact (rounding, overflow and
underflow are left out), so that on finite vectors it is `Euclidean`. -/
def Euclidean64 (a b : List Float64) (bound : Distance) : Float64Distance :=
  euclidean64From bound (Float64.finite 0) a b

end knnutilities

namespace classifier

open knnutilities

/-- The classifier over float64 datasets. -/
structure kNNClassifier64 (τ : Type) where
  k : Int
  trainingData : Option (Dataset64 τ)

/-- `Train(trainingData)` over float64 datasets: the classifier after the call, and the
returned error. -/
def Train64 {τ : Type} (classifier : kNNClassifier64 τ) (trainingData : Dataset64 τ) :
    kNNClassifier64 τ × Option KNNError :=
  if !trainingData.AllFeaturesFloats then
    (classifier, some .NonFloatFeaturesTrainingSetError)
  else if trainingData.NumRows = 0 then
    (classifier, some .EmptyTrainingDatasetError)
  else
    ({ classifier with trainingData := some trainingData }, none)

/-- The scan loop of `Classify` over float64 values, the distance function being a parameter.
The guard `distance < nearestNeighbours.MaxDistance()` is false when the distance is NaN. -/
def classifyLoop64 {τ : Type}
    (distanceFunction : List Float64 → List Float64 → Distance → Float64Distance)
    (trainingData : Dataset64 τ) (testRowFeatureValues : List Float64) :
    Nat → Nat → KNNTargetCollection τ → Except KNNError (KNNTargetCollection τ)
  | 0, _, nearestNeighbours => .ok nearestNeighbours
  | remaining + 1, i, nearestNeighbours =>
      match trainingData.Row i with
      | .error err => .error err
      | .ok trainingRow =>
          match distanceFunction testRowFeatureValues trainingRow.UnsafeFloatFeatureValues
              nearestNeighbours.MaxDistance with
          | .value distance =>
              if distance < nearestNeighbours.MaxDistance then
                classifyLoop64 distanceFunction trainingData testRowFeatureValues remaining
                  (i + 1) (nearestNeighbours.Insert trainingRow.Target distance)
              else
                classifyLoop64 distanceFunction trainingData testRowFeatureValues remaining
                  (i + 1) nearestNeighbours
          | .nan =>
              classifyLoop64 distanceFunction trainingData testRowFeatureValues remaining
                (i + 1) nearestNeighbours

/-- The body of one iteration of the float64 scan, once the training row has been read. -/
def classifyStep64 {τ : Type}
    (distanceFunction : List Float64 → List Float64 → Distance → Float64Distance)
    (testRowFeatureValues : List Float64) (trainingRow : Row64 τ)
    (nearestNeighbours : KNNTargetCollection τ) : KNNTargetCollection τ :=
  match distanceFunction testRowFeatureValues trainingRow.UnsafeFloatFeatureValues
      nearestNeighbours.MaxDistance with
  | .value distance =>
      if distance < nearestNeighbours.MaxDistance then
        nearestNeighbours.Insert trainingRow.Target distance
      else nearestNeighbours
  | .nan => nearestNeighbours

/-- The part of `Classify` up to the end of the scan, over float64 values. -/
def classifyScan64 {τ : Type}
    (distanceFunction : List Float64 → List Float64 → Distance → Float64Distance)
    (classifier : kNNClassifier64 τ) (testRow : Row64 τ) :
    Except KNNError (KNNTargetCollection τ) :=
  match classifier.trainingData with
  | none => .error .UntrainedClassifierError
  | some trainingData =>
      if testRow.NumFeatures ≠ trainingData.NumFeatures then
        .error (.RowLengthMismatchError testRow.NumFeatures trainingData.NumFeatures)
      else if !testRow.AllFeaturesFloats then
        .error .NonFloatFeaturesTestRowError
      else
        match NewKNNTargetCollection classifier.k with
        | .error err => .error err
        | .ok nearestNeighbours =>
            classifyLoop64 distanceFunction trainingData testRow.UnsafeFloatFeatureValues
              trainingData.NumRows 0 nearestNeighbours

/-- `Classify(testRow)` over float64 values, the distance function being a parameter. -/
def Classify64 {τ : Type} [DecidableEq τ]
    (distanceFunction : List Float64 → List Float64 → Distance → Float64Distance)
    (classifier : kNNClassifier64 τ) (testRow : Row64 τ) : Except KNNError τ :=
  match classifyScan64 distanceFunction classifier testRow with
  | .error err => .error err
  | .ok nearestNeighbours => nearestNeighbours.Vote

/-- What is asked of a float64 distance function at a pair of vectors: a value below the bound
is returned exactly when it is the value of the full computation (bound +Inf).  So the full
value is returned when it is below the bound, and otherwise nothing below the bound is. -/
def EarlyExitContract
    (distanceFunction : List Float64 → List Float64 → Distance → Float64Distance)
    (a b : List Float64) : Prop :=
  ∀ bound d : Distance, d < bound →
    (distanceFunction a b bound = .value d ↔
      distanceFunction a b Distance.unbounded = .value d)

/-- A float64 distance function gives distance zero from a vector of finite values to
itself (`x - x` is zero for a finite `x`). -/
def SelfDistanceZero
    (distanceFunction : List Float64 → List Float64 → Distance → Float64Distance) : Prop :=
  ∀ a : List Float64, (∀ x ∈ a, ∃ v, x = Float64.finite v) →
    distanceFunction a a Distance.unbounded = .value (Distance.sqrt 0)

/-- A float64 distance function returns no negative value. -/
def NonNegativeDistance
    (distanceFunction : List Float64 → List Float64 → Distance → Float64Distance) : Prop :=
  ∀ (a b : List Float64) (bound d : Distance),
    distanceFunction a b bound = .value d → Distance.sqrt 0 ≤ d

/-- The state of the float64 scan with `k = 1` after the rows `0 .. i-1`: either nothing is
held and no row seen has a finite computed distance, or the collection holds the entry of one
row `m`, whose computed distance `d` is finite, and every row seen whose computed distance is
not NaN is farther than row `m`, or as far and not earlier. -/
def BestInv {τ : Type}
    (distanceFunction : List Float64 → List Float64 → Distance → Float64Distance)
    (q : List Float64) (r : Nat → Row64 τ) (i : Nat) (nn : KNNTargetCollection τ) : Prop :=
  nn.k = 1 ∧
  ((nn.entries = [] ∧
      ∀ j, j < i → ¬ (distanceFunction q (r j).UnsafeFloatFeatureValues
        Distance.unbounded).IsFinite) ∨
    ∃ (m : Nat) (d : Distance), m < i ∧
      distanceFunction q (r m).UnsafeFloatFeatureValues Distance.unbounded = .value d ∧
      d < Distance.unbounded ∧ nn.entries = [⟨(r m).Target, d⟩] ∧
      ∀ j, j < i → ∀ d', distanceFunction q (r j).UnsafeFloatFeatureValues
          Distance.unbounded = .value d' →
        d < d' ∨ (d = d' ∧ m ≤ j))

/-- The neighbour entry of a float64 training row for a query: the row's label with the
distance computed in full. -/
def rowEntry64 {τ : Type}
    (distanceFunction : List Float64 → List Float64 → Distance → Float64Distance)
    (q : List Float64) (row : Row64 τ) : NeighbourEntry τ where
  label := row.Target
  distance := (distanceFunction q row.UnsafeFloatFeatureValues Distance.unbounded).toDistance

/-- A row of exact values as a float64 row: every value is finite. -/
def toRow64 {τ : Type} (row : Row τ) : Row64 τ where
  NumFeatures := row.NumFeatures
  AllFeaturesFloats := row.AllFeaturesFloats
  Target := row.Target
  UnsafeFloatFeatureValues := row.UnsafeFloatFeatureValues.map Float64.finite

/-- A dataset of exact values as a float64 dataset. -/
def toDataset64 {τ : Type} (td : Dataset τ) : Dataset64 τ where
  AllFeaturesFloats := td.AllFeaturesFloats
  NumFeatures := td.NumFeatures
  NumRows := td.NumRows
  Row := fun i =>
    match td.Row i with
    | .error err => .error err
    | .ok row => .ok (toRow64 row)

/-- A classifier over exact values as a classifier over float64 values. -/
def toClassifier64 {τ : Type} (c : kNNClassifier τ) : kNNClassifier64 τ where
  k := c.k
  trainingData := c.trainingData.map toDataset64

/-- A float64 dataset held in memory: row `i` is the `i`-th element of `rows`, and access
outside the list fails. -/
def dataset64OfRows {τ : Type} (numFeatures : Int) (allFloats : Bool) (rows : List (Row64 τ)) :
    Dataset64 τ where
  AllFeaturesFloats := allFloats
  NumFeatures := numFeatures
  NumRows := rows.length
  Row := fun i =>
    match rows[i]? with
    | some r => .ok r
    | none => .error (.external i)

/-- A numeric float64 row with the given label and feature values. -/
def floatRow64 {τ : Type} (label : τ) (values : List Float64) : Row64 τ where
  NumFeatures := values.length
  AllFeaturesFloats := true
  Target := label
  UnsafeFloatFeatureValues := values

/-- Row `i` of a list of float64 rows, and `fallback` beyond its end. -/
def rowAt64 {τ : Type} (rows : List (Row64 τ)) (fallback : Row64 τ) (i : Nat) : Row64 τ :=
  (rows[i]?).getD fallback

/-- The scenario dataset, its values taken as float64 values. -/
def scenarioDataset64 : Dataset64 String :=
  toDataset64 scenarioDataset

/-- Row `i` of the scenario dataset, its values taken as float64 values. -/
def scenarioRow64 (i : Nat) : Row64 String :=
  toRow64 (rowAt scenarioRows (floatRow "?" []) i)

/-- A single training row whose only feature value is NaN. -/
def nanRows : List (Row64 String) :=
  [floatRow64 "A" [Float64.nan]]

/-- The dataset of `nanRows`. -/
def nanDataset : Dataset64 String :=
  dataset64OfRows 1 true nanRows

/-- Three training rows, of which the second holds +Inf and the third NaN. -/
def specialValueRows : List (Row64 String) :=
  [floatRow64 "A" [Float64.finite 0], floatRow64 "B" [Float64.posInf],
    floatRow64 "B" [Float64.nan]]

/-- The dataset of `specialValueRows`. -/
def specialValueDataset : Dataset64 String :=
  dataset64OfRows 1 true specialValueRows

/-- A single training row whose only feature value is +Inf. -/
def infRows : List (Row64 String) :=
  [floatRow64 "A" [Float64.posInf]]

/-- The dataset of `infRows`. -/
def infDataset : Dataset64 String :=
  dataset64OfRows 1 true infRows

end classifier

/-! ## Order of distances -/

namespace Distance

theorem sqrt_le_sqrt_iff (a b : ℚ) : sqrt a ≤ sqrt b ↔ a ≤ b := by
  show key (sqrt a) ≤ key (sqrt b) ↔ a ≤ b
  simp [key]

theorem sqrt_lt_sqrt_iff (a b : ℚ) : sqrt a < sqrt b ↔ a < b := by
  show key (sqrt a) < key (sqrt b) ↔ a < b
  simp [key]

theorem sqrt_lt_unbounded (a : ℚ) : sqrt a < unbounded := by
  show key (sqrt a) < key unbounded
  simp [key]

theorem le_unbounded (d : Distance) : d ≤ unbounded := by
  show key d ≤ key unbounded
  simp [key]

theorem not_unbounded_le_sqrt (a : ℚ) : ¬ unbounded ≤ sqrt a :=
  not_le.mpr (sqrt_lt_unbounded a)

theorem not_unbounded_lt (d : Distance) : ¬ unbounded < d :=
  not_lt.mpr (le_unbounded d)

theorem max_sqrt_sqrt (a b : ℚ) : max (sqrt a) (sqrt b) = sqrt (max a b) := by
  rcases le_total a b with h | h
  · rw [max_eq_right h, max_eq_right ((sqrt_le_sqrt_iff a b).2 h)]
  · rw [max_eq_left h, max_eq_left ((sqrt_le_sqrt_iff b a).2 h)]

/-- The order of the radicands is the order of the real square roots. -/
theorem sqrt_lt_sqrt_iff_real (a b : ℚ) (ha : 0 ≤ a) :
    sqrt a < sqrt b ↔ Real.sqrt (a : ℝ) < Real.sqrt (b : ℝ) := by
  rw [sqrt_lt_sqrt_iff, Real.sqrt_lt_sqrt_iff (by exact_mod_cast ha)]
  exact Rat.cast_lt.symm

end Distance

/-! ## The distance function and the neighbour collection -/

namespace knnutilities

theorem sumSquaredDifferences_nonneg : ∀ a b : List ℚ, 0 ≤ sumSquaredDifferences a b
  | [], _ => by simp [sumSquaredDifferences]
  | _ :: _, [] => by simp [sumSquaredDifferences]
  | a :: as, b :: bs => by
      have := sumSquaredDifferences_nonneg as bs
      simp only [sumSquaredDifferences]
      positivity

theorem euclideanFrom_spec (bound : Distance) :
    ∀ (a b : List ℚ) (acc : ℚ),
      (Distance.sqrt (acc + sumSquaredDifferences a b) < bound →
        euclideanFrom bound acc a b = Distance.sqrt (acc + sumSquaredDifferences a b)) ∧
      (bound ≤ Distance.sqrt (acc + sumSquaredDifferences a b) →
        bound ≤ euclideanFrom bound acc a b)
  | [], _, acc => by simp [euclideanFrom, sumSquaredDifferences]
  | _ :: _, [], acc => by simp [euclideanFrom, sumSquaredDifferences]
  | a :: as, b :: bs, acc => by
      have ih := euclideanFrom_spec bound as bs (acc + (a - b) ^ 2)
      have hnn := sumSquaredDifferences_nonneg as bs
      simp only [euclideanFrom, sumSquaredDifferences, ← add_assoc]
      by_cases hb : bound ≤ Distance.sqrt (acc + (a - b) ^ 2)
      · rw [if_pos hb]
        refine ⟨fun hlt => ?_, fun _ => hb⟩
        exfalso
        have h1 : Distance.sqrt (acc + (a - b) ^ 2)
            ≤ Distance.sqrt (acc + (a - b) ^ 2 + sumSquaredDifferences as bs) := by
          rw [Distance.sqrt_le_sqrt_iff]; linarith
        exact absurd (lt_of_le_of_lt (le_trans hb h1) hlt) (lt_irrefl _)
      · rw [if_neg hb]
        exact ih

theorem Euclidean_of_lt (a b : List ℚ) (bound : Distance) (h : trueDistance a b < bound) :
    Euclidean a b bound = trueDistance a b := by
  have := (euclideanFrom_spec bound a b 0).1
  simp only [zero_add] at this
  exact this h

theorem Euclidean_of_le (a b : List ℚ) (bound : Distance) (h : bound ≤ trueDistance a b) :
    bound ≤ Euclidean a b bound := by
  have := (euclideanFrom_spec bound a b 0).2
  simp only [zero_add] at this
  exact this h

theorem Euclidean_lt_iff (a b : List ℚ) (bound : Distance) :
    Euclidean a b bound < bound ↔ trueDistance a b < bound := by
  constructor
  · intro h
    by_contra hc
    exact absurd (lt_of_le_of_lt (Euclidean_of_le a b bound (not_lt.mp hc)) h) (lt_irrefl _)
  · intro h
    rw [Euclidean_of_lt a b bound h]; exact h

end knnutilities

namespace knnutilities

theorem foldl_max_spec {τ : Type} :
    ∀ (es : List (NeighbourEntry τ)) (init : Distance),
      init ≤ es.foldl (fun m x => max m x.distance) init ∧
      (∀ x ∈ es, x.distance ≤ es.foldl (fun m x => max m x.distance) init) ∧
      (es.foldl (fun m x => max m x.distance) init = init ∨
        ∃ x ∈ es, es.foldl (fun m x => max m x.distance) init = x.distance)
  | [], init => by simp
  | e :: es, init => by
      obtain ⟨h1, h2, h3⟩ := foldl_max_spec es (max init e.distance)
      simp only [List.foldl_cons, List.mem_cons, forall_eq_or_imp, exists_eq_or_imp]
      refine ⟨le_trans (le_max_left _ _) h1, ⟨le_trans (le_max_right _ _) h1, h2⟩, ?_⟩
      rcases h3 with h3 | h3
      · rcases le_total init e.distance with h | h
        · right; left; rw [h3, max_eq_right h]
        · left; rw [h3, max_eq_left h]
      · right; right; exact h3

/-- On a non-empty list, `largestDistance` is an upper bound of the distances and is attained. -/
theorem largestDistance_spec {τ : Type} (es : List (NeighbourEntry τ)) (hne : es ≠ []) :
    (∀ x ∈ es, x.distance ≤ largestDistance es) ∧ ∃ x ∈ es, largestDistance es = x.distance := by
  cases es with
  | nil => exact absurd rfl hne
  | cons e es =>
      obtain ⟨h1, h2, h3⟩ := foldl_max_spec es e.distance
      simp only [largestDistance, List.mem_cons, forall_eq_or_imp, exists_eq_or_imp]
      exact ⟨⟨h1, h2⟩, h3⟩

/-- Shape of `evictWorst` on the image of a non-empty index list: one index `m` is dropped; the
entries before it are no farther than it, the entries after it are strictly nearer. -/
theorem evictWorst_map {τ ι : Type} (f : ι → NeighbourEntry τ) :
    ∀ l : List ι, l ≠ [] →
      ∃ a m b, l = a ++ m :: b ∧ evictWorst (l.map f) = (a ++ b).map f ∧
        (∀ x ∈ a, (f x).distance ≤ (f m).distance) ∧
        (∀ x ∈ b, (f x).distance < (f m).distance)
  | [], h => absurd rfl h
  | x :: t, _ => by
      by_cases hall : (t.map f).all (fun y => decide (y.distance < (f x).distance)) = true
      · refine ⟨[], x, t, rfl, ?_, by simp, ?_⟩
        · simp only [List.map_cons, evictWorst, hall, if_true, List.nil_append]
        · intro y hy
          simp only [List.all_eq_true, List.mem_map, forall_exists_index, and_imp,
            forall_apply_eq_imp_iff₂, decide_eq_true_eq] at hall
          exact hall y hy
      · have ht : t ≠ [] := by
          rintro rfl
          simp at hall
        obtain ⟨a, m, b, hl, hev, ha, hb⟩ := evictWorst_map f t ht
        refine ⟨x :: a, m, b, by simp [hl], ?_, ?_, hb⟩
        · simp only [List.map_cons, evictWorst, hall, List.cons_append]
          simp [hev]
        · intro y hy
          rcases List.mem_cons.mp hy with rfl | hy
          · simp only [List.all_eq_true, List.mem_map, forall_exists_index, and_imp,
              forall_apply_eq_imp_iff₂, decide_eq_true_eq, not_forall, not_lt] at hall
            obtain ⟨z, hz, hxz⟩ := hall
            rw [hl] at hz
            rcases List.mem_append.mp hz with hz | hz
            · exact le_trans hxz (ha z hz)
            · rcases List.mem_cons.mp hz with rfl | hz
              · exact hxz
              · exact le_trans hxz (le_of_lt (hb z hz))
          · exact ha y hy

theorem MaxDistance_of_lt {τ : Type} (c : KNNTargetCollection τ)
    (h : (c.entries.length : Int) < c.k) : c.MaxDistance = Distance.unbounded := by
  unfold KNNTargetCollection.MaxDistance
  rw [if_pos h]

theorem MaxDistance_of_full {τ : Type} (c : KNNTargetCollection τ)
    (h : ¬ (c.entries.length : Int) < c.k) : c.MaxDistance = largestDistance c.entries := by
  unfold KNNTargetCollection.MaxDistance
  rw [if_neg h]

theorem Insert_of_lt {τ : Type} (c : KNNTargetCollection τ) (label : τ) (d : Distance)
    (h : (c.entries.length : Int) < c.k) :
    c.Insert label d = { k := c.k, entries := c.entries ++ [⟨label, d⟩] } := by
  unfold KNNTargetCollection.Insert
  rw [if_pos h]

theorem Insert_of_full_lt {τ : Type} (c : KNNTargetCollection τ) (label : τ) (d : Distance)
    (h : ¬ (c.entries.length : Int) < c.k) (hd : d < largestDistance c.entries) :
    c.Insert label d = { k := c.k, entries := evictWorst c.entries ++ [⟨label, d⟩] } := by
  unfold KNNTargetCollection.Insert
  rw [if_neg h, if_pos hd]

end knnutilities

/-! ## The scan invariant -/

namespace classifier

open knnutilities

theorem ScanInv.start {τ : Type} (K : Nat) (q : List ℚ) (r : Nat → Row τ) (hK : 1 ≤ K) :
    ScanInv K q r 0 ({ k := (K : Int), entries := [] } : KNNTargetCollection τ) [] where
  k_eq := rfl
  entries_eq := rfl
  sorted := List.Pairwise.nil
  seen := by simp
  initial := by simp
  full := by intro h; omega
  nearest := by simp

theorem ScanInv.step {τ : Type} {K : Nat} {q : List ℚ} {r : Nat → Row τ} {i : Nat}
    {nn : KNNTargetCollection τ} {idxs : List Nat} (inv : ScanInv K q r i nn idxs)
    (hK : 1 ≤ K) :
    ∃ idxs', ScanInv K q r (i + 1)
      (if Euclidean q (r i).UnsafeFloatFeatureValues nn.MaxDistance < nn.MaxDistance then
        nn.Insert (r i).Target (Euclidean q (r i).UnsafeFloatFeatureValues nn.MaxDistance)
       else nn) idxs' := by
  obtain ⟨k_eq, entries_eq, sorted, seen, initial, full, nearest⟩ := inv
  have hlen : nn.entries.length = idxs.length := by rw [entries_eq, List.length_map]
  by_cases hfull : idxs.length < K
  · -- the collection is not full: the row is appended
    have hiK : i < K := by
      by_contra hc
      have := full (not_lt.mp hc)
      omega
    have hrange : idxs = List.range i := initial (le_of_lt hiK)
    have hcond : (nn.entries.length : Int) < nn.k := by
      rw [hlen, k_eq]; exact_mod_cast hfull
    have hmax : nn.MaxDistance = Distance.unbounded := MaxDistance_of_lt nn hcond
    have hlt : trueDistance q (r i).UnsafeFloatFeatureValues < Distance.unbounded :=
      Distance.sqrt_lt_unbounded _
    rw [hmax, if_pos ((Euclidean_lt_iff _ _ _).2 hlt), Euclidean_of_lt _ _ _ hlt,
      Insert_of_lt nn _ _ hcond]
    refine ⟨List.range (i + 1), ?_⟩
    refine ⟨k_eq, ?_, ?_, ?_, fun _ => rfl, ?_, ?_⟩
    · show nn.entries ++ [rowEntry q (r i)] = _
      rw [entries_eq, hrange, List.range_succ, List.map_append]
      rfl
    · exact List.pairwise_lt_range (i + 1)
    · intro m hm; exact List.mem_range.mp hm
    · intro h; rw [List.length_range]; omega
    · intro j hj hnot; exact absurd (List.mem_range.mpr hj) hnot
  · -- the collection is full
    have hKi : K ≤ i := by
      by_contra hc
      have := initial (le_of_lt (not_le.mp hc))
      rw [this, List.length_range] at hfull
      omega
    have hlenK : idxs.length = K := full hKi
    have hne : idxs ≠ [] := by
      intro h; rw [h] at hlenK; simp at hlenK; omega
    have hcond : ¬ (nn.entries.length : Int) < nn.k := by
      rw [hlen, k_eq]; exact_mod_cast hfull
    have hmax : nn.MaxDistance = largestDistance (idxs.map (fun m => rowEntry q (r m))) := by
      rw [MaxDistance_of_full nn hcond, entries_eq]
    have hmapne : idxs.map (fun m => rowEntry q (r m)) ≠ [] := by
      simpa using hne
    obtain ⟨hub, e1, he1, hatt⟩ := largestDistance_spec _ hmapne
    obtain ⟨m1, hm1, rfl⟩ := List.mem_map.mp he1
    have hub' : ∀ m ∈ idxs, (rowEntry q (r m)).distance
        ≤ largestDistance (idxs.map (fun m => rowEntry q (r m))) :=
      fun m hm => hub _ (List.mem_map_of_mem _ hm)
    rw [hmax]
    by_cases hd : trueDistance q (r i).UnsafeFloatFeatureValues
        < largestDistance (idxs.map (fun m => rowEntry q (r m)))
    · -- strictly nearer than the worst entry: the worst entry is replaced
      have hd' : trueDistance q (r i).UnsafeFloatFeatureValues
          < largestDistance nn.entries := by rw [entries_eq]; exact hd
      rw [if_pos ((Euclidean_lt_iff _ _ _).2 hd), Euclidean_of_lt _ _ _ hd,
        Insert_of_full_lt nn _ _ hcond hd']
      obtain ⟨a, m0, b, hl, hev, ha, hb⟩ :=
        evictWorst_map (fun m => rowEntry q (r m)) idxs hne
      have hm1le : (rowEntry q (r m1)).distance ≤ (rowEntry q (r m0)).distance := by
        rw [hl] at hm1
        rcases List.mem_append.mp hm1 with h | h
        · exact ha m1 h
        · rcases List.mem_cons.mp h with rfl | h
          · exact le_refl _
          · exact le_of_lt (hb m1 h)
      have him0 : (rowEntry q (r i)).distance < (rowEntry q (r m0)).distance :=
        lt_of_lt_of_le (hatt ▸ hd) hm1le
      have hsub : ∀ m, m ∈ a ++ b → m ∈ idxs := by
        intro m hm
        rw [hl]
        rcases List.mem_append.mp hm with h | h
        · exact List.mem_append_left _ h
        · exact List.mem_append_right _ (List.mem_cons_of_mem _ h)
      have hsorted := sorted
      rw [hl] at hsorted
      have hsorted_ab : (a ++ b).Pairwise (fun m n => m < n) := by
        rw [List.pairwise_append] at hsorted ⊢
        exact ⟨hsorted.1, (List.pairwise_cons.mp hsorted.2.1).2,
          fun x hx y hy => hsorted.2.2 x hx y (List.mem_cons_of_mem _ hy)⟩
      have ha_lt : ∀ m ∈ a, m < m0 := fun m hm =>
        (List.pairwise_append.mp hsorted).2.2 m hm m0 (List.mem_cons_self _ _)
      have hm0_notin : m0 ∉ a ++ b := by
        intro h
        rcases List.mem_append.mp h with h | h
        · exact absurd (ha_lt m0 h) (lt_irrefl _)
        · exact absurd ((List.pairwise_cons.mp (List.pairwise_append.mp hsorted).2.1).1 m0 h)
            (lt_irrefl _)
      refine ⟨a ++ b ++ [i], ?_⟩
      refine ⟨k_eq, ?_, ?_, ?_, ?_, ?_, ?_⟩
      · show evictWorst nn.entries ++ [rowEntry q (r i)] = _
        rw [entries_eq, hev]
        simp only [List.map_append, List.map_cons, List.map_nil]
      · rw [List.pairwise_append]
        refine ⟨hsorted_ab, List.pairwise_singleton _ _, ?_⟩
        intro x hx y hy
        rw [List.mem_singleton.mp hy]
        exact seen x (hsub x hx)
      · intro m hm
        rcases List.mem_append.mp hm with h | h
        · exact Nat.lt_succ_of_lt (seen m (hsub m h))
        · rw [List.mem_singleton.mp h]; exact Nat.lt_succ_self _
      · intro h; omega
      · intro _
        have : idxs.length = a.length + b.length + 1 := by rw [hl]; simp; omega
        simp only [List.length_append, List.length_singleton]
        omega
      · intro j hj hnot m hm
        have hji : j ≠ i := fun h => hnot (by rw [h]; simp)
        have hjab : j ∉ a ++ b := fun h => hnot (List.mem_append_left _ h)
        have hjlt : j < i := by omega
        by_cases hjm0 : j = m0
        · subst hjm0
          rcases List.mem_append.mp hm with h | h
          · rcases List.mem_append.mp h with h | h
            · rcases lt_or_eq_of_le (ha m h) with hlt | heq
              · exact Or.inl hlt
              · exact Or.inr ⟨heq, ha_lt m h⟩
            · exact Or.inl (hb m h)
          · rw [List.mem_singleton.mp h]; exact Or.inl him0
        · have hjidx : j ∉ idxs := by
            rw [hl]
            intro h
            rcases List.mem_append.mp h with h | h
            · exact hjab (List.mem_append_left _ h)
            · rcases List.mem_cons.mp h with h | h
              · exact hjm0 h
              · exact hjab (List.mem_append_right _ h)
          rcases List.mem_append.mp hm with h | h
          · exact nearest j hjlt hjidx m (hsub m h)
          · rw [List.mem_singleton.mp h]
            have hm0 : m0 ∈ idxs := by rw [hl]; simp
            rcases nearest j hjlt hjidx m0 hm0 with h0 | ⟨h0, _⟩
            · exact Or.inl (lt_trans him0 h0)
            · exact Or.inl (h0 ▸ him0)
    · -- not nearer than the worst entry: nothing changes
      have hge := not_lt.mp hd
      rw [if_neg (fun h => hd ((Euclidean_lt_iff _ _ _).1 h))]
      refine ⟨idxs, ⟨k_eq, entries_eq, sorted, fun m hm => Nat.lt_succ_of_lt (seen m hm),
        fun h => by omega, fun _ => hlenK, ?_⟩⟩
      intro j hj hnot m hm
      by_cases hji : j = i
      · subst hji
        rcases lt_or_eq_of_le (le_trans (hub' m hm) hge) with hlt | heq
        · exact Or.inl hlt
        · exact Or.inr ⟨heq, seen m hm⟩
      · exact nearest j (by omega) hnot m hm

end classifier

namespace classifier

open knnutilities

/-- The loop of `Classify` preserves the scan invariant and, when no row access fails, runs to
the end. -/
theorem classifyLoop_inv {τ : Type} (td : Dataset τ) (q : List ℚ) (r : Nat → Row τ) (K : Nat)
    (hK : 1 ≤ K) :
    ∀ (n i : Nat) (nn : KNNTargetCollection τ) (idxs : List Nat),
      ScanInv K q r i nn idxs →
      (∀ j, i ≤ j → j < i + n → td.Row j = .ok (r j)) →
      ∃ nn' idxs', classifyLoop td q n i nn = .ok nn' ∧ ScanInv K q r (i + n) nn' idxs'
  | 0, i, nn, idxs, inv, _ => ⟨nn, idxs, rfl, inv⟩
  | n + 1, i, nn, idxs, inv, hrows => by
      obtain ⟨idxs1, inv1⟩ := inv.step hK
      have hrow : td.Row i = .ok (r i) := hrows i (le_refl _) (by omega)
      have hrest : ∀ j, i + 1 ≤ j → j < i + 1 + n → td.Row j = .ok (r j) :=
        fun j h1 h2 => hrows j (by omega) (by omega)
      obtain ⟨nn', idxs', hloop, inv'⟩ := classifyLoop_inv td q r K hK n (i + 1) _ idxs1 inv1 hrest
      have hidx : i + (n + 1) = i + 1 + n := by omega
      refine ⟨nn', idxs', ?_, hidx ▸ inv'⟩
      rw [← hloop]
      simp only [classifyLoop, hrow]
      split <;> rfl

/-- When the query passes validation and no row access fails, the scan of `Classify` finishes
and leaves a collection that satisfies the scan invariant for all the rows. -/
theorem classifyScan_inv {τ : Type} (c : kNNClassifier τ) (td : Dataset τ) (testRow : Row τ)
    (r : Nat → Row τ) (hk : 1 ≤ c.k) (htd : c.trainingData = some td)
    (hfeat : testRow.NumFeatures = td.NumFeatures) (hfloat : testRow.AllFeaturesFloats = true)
    (hrows : ∀ i, i < td.NumRows → td.Row i = .ok (r i)) :
    ∃ nn idxs, classifyScan c testRow = .ok nn ∧
      ScanInv c.k.toNat testRow.UnsafeFloatFeatureValues r td.NumRows nn idxs := by
  have hK : 1 ≤ c.k.toNat := by omega
  have hcast : ((c.k.toNat : Nat) : Int) = c.k := Int.toNat_of_nonneg (by omega)
  obtain ⟨nn, idxs, hloop, inv⟩ :=
    classifyLoop_inv td testRow.UnsafeFloatFeatureValues r c.k.toNat hK td.NumRows 0
      { k := (c.k.toNat : Int), entries := [] } [] (ScanInv.start _ _ _ hK)
      (fun j _ hj => hrows j (by omega))
  refine ⟨nn, idxs, ?_, by simpa using inv⟩
  have hnot : ¬ c.k < 1 := by omega
  simp only [classifyScan, htd, hfeat, hfloat, NewKNNTargetCollection, hnot]
  rw [← hloop, hcast]
  simp

end classifier

namespace knnutilities

theorem sumSquaredDifferences_self : ∀ a : List ℚ, sumSquaredDifferences a a = 0
  | [] => rfl
  | a :: as => by simp [sumSquaredDifferences, sumSquaredDifferences_self as]

theorem trueDistance_self (a : List ℚ) : trueDistance a a = Distance.sqrt 0 := by
  rw [trueDistance, sumSquaredDifferences_self]

theorem sqrt_zero_le_trueDistance (a b : List ℚ) : Distance.sqrt 0 ≤ trueDistance a b :=
  (Distance.sqrt_le_sqrt_iff _ _).2 (sumSquaredDifferences_nonneg a b)

/-- For two vectors of the same length, the distance is zero exactly when they are equal. -/
theorem trueDistance_eq_zero_iff :
    ∀ a b : List ℚ, a.length = b.length → (trueDistance a b = Distance.sqrt 0 ↔ a = b)
  | [], [], _ => by simp [trueDistance, sumSquaredDifferences]
  | [], _ :: _, h => by simp at h
  | _ :: _, [], h => by simp at h
  | a :: as, b :: bs, h => by
      have hlen : as.length = bs.length := by simpa using h
      have ih := trueDistance_eq_zero_iff as bs hlen
      have hnn := sumSquaredDifferences_nonneg as bs
      simp only [trueDistance, Distance.sqrt.injEq] at ih ⊢
      simp only [sumSquaredDifferences, List.cons.injEq]
      constructor
      · intro hs
        have h1 : (a - b) ^ 2 = 0 := by nlinarith [sq_nonneg (a - b)]
        have h2 : sumSquaredDifferences as bs = 0 := by nlinarith [sq_nonneg (a - b)]
        exact ⟨by have := pow_eq_zero_iff (two_ne_zero) |>.mp h1; linarith, ih.mp h2⟩
      · rintro ⟨rfl, hab⟩
        rw [ih.mpr hab]; simp

/-- The vote of a collection with a single entry is that entry's label. -/
theorem Vote_singleton {τ : Type} [DecidableEq τ] (k : Int) (e : NeighbourEntry τ) :
    ({ k := k, entries := [e] } : KNNTargetCollection τ).Vote = .ok e.label := rfl

end knnutilities

namespace classifier

open knnutilities

theorem datasetOfRows_Row {τ : Type} (numFeatures : Int) (allFloats : Bool)
    (rows : List (Row τ)) (fallback : Row τ) (i : Nat) (h : i < rows.length) :
    (datasetOfRows numFeatures allFloats rows).Row i = .ok (rowAt rows fallback i) := by
  simp [datasetOfRows, rowAt, List.getElem?_eq_getElem h]

/-- With `k = 1`, a valid query and no row-access failure, the scan ends with the single entry
of the lowest-index row among the rows nearest to the query, and `Classify` returns that row's
label. -/
theorem Classify_k_one {τ : Type} [DecidableEq τ] (c : kNNClassifier τ) (td : Dataset τ)
    (testRow : Row τ) (r : Nat → Row τ) (hk : c.k = 1) (htd : c.trainingData = some td)
    (hN : 1 ≤ td.NumRows) (hfeat : testRow.NumFeatures = td.NumFeatures)
    (hfloat : testRow.AllFeaturesFloats = true)
    (hrows : ∀ i, i < td.NumRows → td.Row i = .ok (r i)) :
    ∃ i, i < td.NumRows ∧
      (∀ j, j < td.NumRows →
        trueDistance testRow.UnsafeFloatFeatureValues (r i).UnsafeFloatFeatureValues
          ≤ trueDistance testRow.UnsafeFloatFeatureValues (r j).UnsafeFloatFeatureValues) ∧
      (∀ j, j < i →
        trueDistance testRow.UnsafeFloatFeatureValues (r i).UnsafeFloatFeatureValues
          < trueDistance testRow.UnsafeFloatFeatureValues (r j).UnsafeFloatFeatureValues) ∧
      classifyScan c testRow
        = .ok { k := 1, entries := [rowEntry testRow.UnsafeFloatFeatureValues (r i)] } ∧
      Classify c testRow = .ok (r i).Target := by
  obtain ⟨nn, idxs, hscan, inv⟩ :=
    classifyScan_inv c td testRow r (by omega) htd hfeat hfloat hrows
  have hK : c.k.toNat = 1 := by rw [hk]; rfl
  rw [hK] at inv
  have hlen : idxs.length = 1 := inv.full hN
  obtain ⟨m, rfl⟩ := List.length_eq_one.mp hlen
  have hnn : nn = { k := 1, entries := [rowEntry testRow.UnsafeFloatFeatureValues (r m)] } := by
    cases nn with
    | mk k entries =>
        have h1 := inv.k_eq
        have h2 := inv.entries_eq
        simp only [List.map_cons, List.map_nil] at h2
        simp only at h1
        rw [h1, h2]; rfl
  have hnear : ∀ j, j < td.NumRows → j ≠ m →
      (rowEntry testRow.UnsafeFloatFeatureValues (r m)).distance
          < (rowEntry testRow.UnsafeFloatFeatureValues (r j)).distance ∨
        ((rowEntry testRow.UnsafeFloatFeatureValues (r m)).distance
          = (rowEntry testRow.UnsafeFloatFeatureValues (r j)).distance ∧ m < j) :=
    fun j hj hne => inv.nearest j hj (by simpa using hne) m (by simp)
  refine ⟨m, inv.seen m (by simp), ?_, ?_, ?_, ?_⟩
  · intro j hj
    by_cases hjm : j = m
    · rw [hjm]
    · rcases hnear j hj hjm with h | ⟨h, _⟩
      · exact le_of_lt h
      · exact le_of_eq h
  · intro j hj
    have hm := inv.seen m (by simp)
    rcases hnear j (by omega) (by omega) with h | ⟨_, h⟩
    · exact h
    · omega
  · rw [hscan, hnn]
  · simp only [Classify, hscan, hnn]
    exact Vote_singleton 1 _

end classifier

/-! ## Construction and training -/

namespace classifier

open knnutilities

/-- C5: `NewKNNClassifier k` fails, with `InvalidNumberOfNeighboursError` carrying `k`, exactly
when `k < 1` (and then every failure is that error, so no classifier is returned); exactly when
`1 ≤ k` it returns, without error, the classifier whose `k` is the given one and whose
training-data reference is absent. -/
theorem NewKNNClassifier_iff {τ : Type} (k : Int) :
    ((NewKNNClassifier k : Except KNNError (kNNClassifier τ))
        = .error (.InvalidNumberOfNeighboursError k) ↔ k < 1) ∧
    ((∃ e, (NewKNNClassifier k : Except KNNError (kNNClassifier τ)) = .error e) ↔ k < 1) ∧
    ((NewKNNClassifier k : Except KNNError (kNNClassifier τ))
        = .ok { k := k, trainingData := none } ↔ 1 ≤ k) := by
  unfold NewKNNClassifier
  by_cases h : k < 1
  · simp [h]
  · simp [h, not_lt.mp h]

/-- C6: `Classify` on a classifier that holds no training-data reference fails with
`UntrainedClassifierError`, whatever the query row. -/
theorem Classify_untrained {τ : Type} [DecidableEq τ] (c : kNNClassifier τ) (testRow : Row τ)
    (h : c.trainingData = none) :
    Classify c testRow = .error .UntrainedClassifierError := by
  simp [Classify, classifyScan, h]

/-- Witness of C6: a classifier with `k = 3` and no training data, queried with a non-numeric
row whose feature count is 7. -/
theorem Classify_untrained_witness :
    Classify ({ k := 3, trainingData := none } : kNNClassifier String)
      { NumFeatures := 7, AllFeaturesFloats := false, Target := "?",
        UnsafeFloatFeatureValues := [] }
      = .error .UntrainedClassifierError :=
  Classify_untrained _ _ rfl

/-- C7: `Train` returns no error exactly when the dataset's all-features-numeric flag is true
and its row count is not zero; on success the classifier afterwards holds exactly the dataset
passed as its training data, whatever it held before, and its `k` is unchanged. -/
theorem Train_success_iff {τ : Type} (c : kNNClassifier τ) (ds : Dataset τ) :
    ((Train c ds).2 = none ↔ (ds.AllFeaturesFloats = true ∧ ds.NumRows ≠ 0)) ∧
    ((Train c ds).2 = none →
      (Train c ds).1.trainingData = some ds ∧ (Train c ds).1.k = c.k) := by
  unfold Train
  cases hf : ds.AllFeaturesFloats <;> by_cases hn : ds.NumRows = 0 <;> simp [hn]

/-- Witness of C7: training a classifier that already holds a dataset on the scenario
dataset succeeds and replaces the reference. -/
theorem Train_success_iff_witness :
    (Train ({ k := 2, trainingData := some emptyNumericDataset } : kNNClassifier String)
        scenarioDataset).2 = none ∧
    (Train ({ k := 2, trainingData := some emptyNumericDataset } : kNNClassifier String)
        scenarioDataset).1.trainingData = some scenarioDataset ∧
    (Train ({ k := 2, trainingData := some emptyNumericDataset } : kNNClassifier String)
        scenarioDataset).1.k = 2 :=
  ⟨rfl, (Train_success_iff _ scenarioDataset).2 rfl⟩

/-- Counterexample to C8 as stated: the dataset `emptyNonNumericDataset` has zero rows, yet
`Train` returns `NonFloatFeaturesTrainingSetError`, not `EmptyTrainingDatasetError`, because
the numeric-flag check comes first. -/
theorem Train_empty_counterexample :
    emptyNonNumericDataset.NumRows = 0 ∧
    (Train ({ k := 1, trainingData := none } : kNNClassifier String) emptyNonNumericDataset).2
      = some .NonFloatFeaturesTrainingSetError ∧
    (Train ({ k := 1, trainingData := none } : kNNClassifier String) emptyNonNumericDataset).2
      ≠ some .EmptyTrainingDatasetError := by
  refine ⟨rfl, rfl, ?_⟩
  decide

/-- C8 (amended): for every dataset whose all-features-numeric flag is true and whose row
count is zero, `Train` returns `EmptyTrainingDatasetError`. -/
theorem Train_empty {τ : Type} (c : kNNClassifier τ) (ds : Dataset τ)
    (hf : ds.AllFeaturesFloats = true) (hn : ds.NumRows = 0) :
    (Train c ds).2 = some .EmptyTrainingDatasetError := by
  simp [Train, hf, hn]

/-- Witness of C8 (amended): the numeric dataset without rows. -/
theorem Train_empty_witness :
    (Train ({ k := 1, trainingData := none } : kNNClassifier String) emptyNumericDataset).2
      = some .EmptyTrainingDatasetError :=
  Train_empty _ emptyNumericDataset rfl rfl

/-- C9: for every dataset whose all-features-numeric flag is false, whatever its row count,
`Train` returns `NonFloatFeaturesTrainingSetError`. -/
theorem Train_nonFloat {τ : Type} (c : kNNClassifier τ) (ds : Dataset τ)
    (hf : ds.AllFeaturesFloats = false) :
    (Train c ds).2 = some .NonFloatFeaturesTrainingSetError := by
  simp [Train, hf]

/-- Witness of C9: a non-numeric dataset with one row. -/
theorem Train_nonFloat_witness :
    (Train ({ k := 1, trainingData := none } : kNNClassifier String)
        (datasetOfRows 1 false [floatRow "A" [0]])).2
      = some .NonFloatFeaturesTrainingSetError :=
  Train_nonFloat _ _ rfl

/-- C10: a failed `Train` leaves the classifier as it was.  Whenever `Train` returns an error,
that error is the non-numeric-features or the empty-dataset error, the classifier after the
call equals the classifier before it (same `k`, same training-data reference), and so
`Classify` answers every query as it did before the call. -/
theorem Train_failure_unchanged {τ : Type} [DecidableEq τ] (c : kNNClassifier τ)
    (ds : Dataset τ) (e : KNNError) (h : (Train c ds).2 = some e) :
    (e = .NonFloatFeaturesTrainingSetError ∨ e = .EmptyTrainingDatasetError) ∧
    (Train c ds).1 = c ∧
    (Train c ds).1.k = c.k ∧ (Train c ds).1.trainingData = c.trainingData ∧
    ∀ testRow : Row τ, Classify (Train c ds).1 testRow = Classify c testRow := by
  unfold Train at h ⊢
  cases hf : ds.AllFeaturesFloats <;> by_cases hn : ds.NumRows = 0 <;>
    simp [hf, hn] at h ⊢ <;> simp [← h]

/-- Witness of C10: a classifier trained on the scenario dataset is retrained on a dataset
without rows; the call fails and the classifier still holds the scenario dataset. -/
theorem Train_failure_unchanged_witness :
    (Train ({ k := 1, trainingData := some scenarioDataset } : kNNClassifier String)
        emptyNumericDataset).2 = some .EmptyTrainingDatasetError ∧
    (Train ({ k := 1, trainingData := some scenarioDataset } : kNNClassifier String)
        emptyNumericDataset).1.trainingData = some scenarioDataset :=
  ⟨rfl, (Train_failure_unchanged _ emptyNumericDataset .EmptyTrainingDatasetError rfl).2.2.2.1⟩

end classifier

/-! ## Classification -/

namespace classifier

open knnutilities

/-- C1: for a classifier with `k ≥ 1` trained on `N ≥ 1` rows and a valid query (matching
feature count, numeric features, no row-access failure), the scan of `Classify` finishes with a
collection of exactly `min k N` entries; these are the (label, true Euclidean distance) entries
of distinct training rows (the rows `idxs`), every training row that is not retained is at
least as far from the query as every retained one, and the label `Classify` returns is the
`Vote` of exactly that collection. -/
theorem Classify_retains_nearest {τ : Type} [DecidableEq τ] (c : kNNClassifier τ)
    (td : Dataset τ) (testRow : Row τ) (r : Nat → Row τ) (hk : 1 ≤ c.k)
    (htd : c.trainingData = some td) (hN : 1 ≤ td.NumRows)
    (hfeat : testRow.NumFeatures = td.NumFeatures) (hfloat : testRow.AllFeaturesFloats = true)
    (hrows : ∀ i, i < td.NumRows → td.Row i = .ok (r i)) :
    ∃ (nn : KNNTargetCollection τ) (idxs : List Nat) (label : τ),
      classifyScan c testRow = .ok nn ∧
      nn.entries = idxs.map (fun i => rowEntry testRow.UnsafeFloatFeatureValues (r i)) ∧
      (nn.entries.length : Int) = min c.k (td.NumRows : Int) ∧
      idxs.Nodup ∧ (∀ i ∈ idxs, i < td.NumRows) ∧
      (∀ j, j < td.NumRows → j ∉ idxs → ∀ i ∈ idxs,
        trueDistance testRow.UnsafeFloatFeatureValues (r i).UnsafeFloatFeatureValues
          ≤ trueDistance testRow.UnsafeFloatFeatureValues (r j).UnsafeFloatFeatureValues) ∧
      nn.Vote = .ok label ∧ Classify c testRow = .ok label := by
  obtain ⟨nn, idxs, hscan, inv⟩ := classifyScan_inv c td testRow r hk htd hfeat hfloat hrows
  have hcast : ((c.k.toNat : Nat) : Int) = c.k := Int.toNat_of_nonneg (by omega)
  have hlen : idxs.length = min c.k.toNat td.NumRows := by
    rcases le_total td.NumRows c.k.toNat with h | h
    · rw [inv.initial h, List.length_range, min_eq_right h]
    · rw [inv.full h, min_eq_left h]
  have hlenE : nn.entries.length = idxs.length := by rw [inv.entries_eq, List.length_map]
  have hpos : 0 < nn.entries.length := by
    rw [hlenE, hlen]
    exact lt_min (by omega) (by omega)
  obtain ⟨e, es, hes⟩ := List.exists_cons_of_length_pos hpos
  have hvote : nn.Vote = .ok (majorityLabel e es) := by
    simp only [KNNTargetCollection.Vote, hes]
  refine ⟨nn, idxs, majorityLabel e es, hscan, inv.entries_eq, ?_, ?_, ?_, ?_, hvote, ?_⟩
  · rw [hlenE, hlen, ← hcast]
    exact_mod_cast rfl
  · exact inv.sorted.imp (fun h => ne_of_lt h)
  · exact inv.seen
  · intro j hj hnot i hi
    rcases inv.nearest j hj hnot i hi with h | ⟨h, _⟩
    · exact le_of_lt h
    · exact le_of_eq h
  · simp only [Classify, hscan]
    exact hvote

/-- Witness of C1: `k = 2` on the scenario rows with the query `[9, 9]`. -/
theorem Classify_retains_nearest_witness :
    ∃ (nn : KNNTargetCollection String) (idxs : List Nat) (label : String),
      classifyScan { k := 2, trainingData := some scenarioDataset } (floatRow "?" [9, 9])
        = .ok nn ∧
      nn.entries = idxs.map (fun i => rowEntry [9, 9] (rowAt scenarioRows (floatRow "?" []) i)) ∧
      (nn.entries.length : Int) = min 2 3 ∧
      idxs.Nodup ∧ (∀ i ∈ idxs, i < 3) ∧
      (∀ j, j < 3 → j ∉ idxs → ∀ i ∈ idxs,
        trueDistance [9, 9] (rowAt scenarioRows (floatRow "?" []) i).UnsafeFloatFeatureValues
          ≤ trueDistance [9, 9]
              (rowAt scenarioRows (floatRow "?" []) j).UnsafeFloatFeatureValues) ∧
      nn.Vote = .ok label ∧
      Classify { k := 2, trainingData := some scenarioDataset } (floatRow "?" [9, 9])
        = .ok label :=
  Classify_retains_nearest { k := 2, trainingData := some scenarioDataset } scenarioDataset
    (floatRow "?" [9, 9]) (rowAt scenarioRows (floatRow "?" [])) (by decide) rfl (by decide) rfl
    rfl (fun i hi => datasetOfRows_Row 2 true scenarioRows _ i hi)

/-- In exact arithmetic: with `k = 1`, a non-empty training set and a valid query whose feature
vector equals that of training row `i`, `Classify` returns the label of the lowest-index training row
at distance 0 from the query, a row `m ≤ i`; it returns the label of row `i` whenever every row
before `i` at distance 0 from the query carries the same label as row `i`. -/
theorem Classify_identical {τ : Type} [DecidableEq τ] (c : kNNClassifier τ) (td : Dataset τ)
    (testRow : Row τ) (r : Nat → Row τ) (i : Nat) (hk : c.k = 1)
    (htd : c.trainingData = some td) (hfeat : testRow.NumFeatures = td.NumFeatures)
    (hfloat : testRow.AllFeaturesFloats = true)
    (hrows : ∀ j, j < td.NumRows → td.Row j = .ok (r j)) (hi : i < td.NumRows)
    (heq : testRow.UnsafeFloatFeatureValues = (r i).UnsafeFloatFeatureValues) :
    (∃ m, m ≤ i ∧
      trueDistance testRow.UnsafeFloatFeatureValues (r m).UnsafeFloatFeatureValues
        = Distance.sqrt 0 ∧
      (∀ j, j < m →
        trueDistance testRow.UnsafeFloatFeatureValues (r j).UnsafeFloatFeatureValues
          ≠ Distance.sqrt 0) ∧
      Classify c testRow = .ok (r m).Target) ∧
    ((∀ j, j < i →
        trueDistance testRow.UnsafeFloatFeatureValues (r j).UnsafeFloatFeatureValues
          = Distance.sqrt 0 → (r j).Target = (r i).Target) →
      Classify c testRow = .ok (r i).Target) := by
  obtain ⟨m, _, hmin, hfirst, _, hres⟩ :=
    Classify_k_one c td testRow r hk htd (by omega) hfeat hfloat hrows
  have hDi : trueDistance testRow.UnsafeFloatFeatureValues (r i).UnsafeFloatFeatureValues
      = Distance.sqrt 0 := by rw [← heq]; exact trueDistance_self _
  have hDm : trueDistance testRow.UnsafeFloatFeatureValues (r m).UnsafeFloatFeatureValues
      = Distance.sqrt 0 :=
    le_antisymm (hDi ▸ hmin i hi) (sqrt_zero_le_trueDistance _ _)
  have hmi : m ≤ i := by
    by_contra hc
    have := hfirst i (not_le.mp hc)
    rw [hDm, hDi] at this
    exact lt_irrefl _ this
  refine ⟨⟨m, hmi, hDm, ?_, hres⟩, ?_⟩
  · intro j hj h0
    have := hfirst j hj
    rw [hDm, h0] at this
    exact lt_irrefl _ this
  · intro hdup
    rcases Nat.lt_or_eq_of_le hmi with hlt | rfl
    · rw [hres, hdup m hlt hDm]
    · exact hres

/-- An instance of `Classify_identical`: `k = 1` on the scenario rows, the query being row 2,
`[1, 1]`. -/
theorem Classify_identical_witness :
    (∃ m, m ≤ 2 ∧
      trueDistance [1, 1] (rowAt scenarioRows (floatRow "?" []) m).UnsafeFloatFeatureValues
        = Distance.sqrt 0 ∧
      (∀ j, j < m →
        trueDistance [1, 1] (rowAt scenarioRows (floatRow "?" []) j).UnsafeFloatFeatureValues
          ≠ Distance.sqrt 0) ∧
      Classify { k := 1, trainingData := some scenarioDataset } (floatRow "?" [1, 1])
        = .ok (rowAt scenarioRows (floatRow "?" []) m).Target) ∧
    ((∀ j, j < 2 →
        trueDistance [1, 1] (rowAt scenarioRows (floatRow "?" []) j).UnsafeFloatFeatureValues
          = Distance.sqrt 0 →
        (rowAt scenarioRows (floatRow "?" []) j).Target
          = (rowAt scenarioRows (floatRow "?" []) 2).Target) →
      Classify { k := 1, trainingData := some scenarioDataset } (floatRow "?" [1, 1])
        = .ok (rowAt scenarioRows (floatRow "?" []) 2).Target) :=
  Classify_identical { k := 1, trainingData := some scenarioDataset } scenarioDataset
    (floatRow "?" [1, 1]) (rowAt scenarioRows (floatRow "?" [])) 2 rfl rfl rfl rfl
    (fun j hj => datasetOfRows_Row 2 true scenarioRows _ j hj) (by decide) rfl

/-- In exact arithmetic: with `k = 1`, a trained classifier and a valid query (matching feature
count, numeric features, no row-access failure), `Classify` returns the label of a training row whose
Euclidean distance to the query is minimal over all training rows, namely the lowest-index row
attaining that minimum (every earlier row is strictly farther). -/
theorem Classify_nearest {τ : Type} [DecidableEq τ] (c : kNNClassifier τ) (td : Dataset τ)
    (testRow : Row τ) (r : Nat → Row τ) (hk : c.k = 1) (htd : c.trainingData = some td)
    (hN : 1 ≤ td.NumRows) (hfeat : testRow.NumFeatures = td.NumFeatures)
    (hfloat : testRow.AllFeaturesFloats = true)
    (hrows : ∀ i, i < td.NumRows → td.Row i = .ok (r i)) :
    ∃ i, i < td.NumRows ∧
      (∀ j, j < td.NumRows →
        trueDistance testRow.UnsafeFloatFeatureValues (r i).UnsafeFloatFeatureValues
          ≤ trueDistance testRow.UnsafeFloatFeatureValues (r j).UnsafeFloatFeatureValues) ∧
      (∀ j, j < i →
        trueDistance testRow.UnsafeFloatFeatureValues (r i).UnsafeFloatFeatureValues
          < trueDistance testRow.UnsafeFloatFeatureValues (r j).UnsafeFloatFeatureValues) ∧
      Classify c testRow = .ok (r i).Target := by
  obtain ⟨i, hi, hmin, hfirst, _, hres⟩ :=
    Classify_k_one c td testRow r hk htd hN hfeat hfloat hrows
  exact ⟨i, hi, hmin, hfirst, hres⟩

/-- An instance of `Classify_nearest`: the spec's scenario, `k = 1` and the query
`[0.9, 0.9]`, which gives `A`. -/
theorem Classify_nearest_witness :
    (∃ i, i < 3 ∧
      (∀ j, j < 3 →
        trueDistance [9 / 10, 9 / 10]
            (rowAt scenarioRows (floatRow "?" []) i).UnsafeFloatFeatureValues
          ≤ trueDistance [9 / 10, 9 / 10]
              (rowAt scenarioRows (floatRow "?" []) j).UnsafeFloatFeatureValues) ∧
      (∀ j, j < i →
        trueDistance [9 / 10, 9 / 10]
            (rowAt scenarioRows (floatRow "?" []) i).UnsafeFloatFeatureValues
          < trueDistance [9 / 10, 9 / 10]
              (rowAt scenarioRows (floatRow "?" []) j).UnsafeFloatFeatureValues) ∧
      Classify { k := 1, trainingData := some scenarioDataset } (floatRow "?" [9 / 10, 9 / 10])
        = .ok (rowAt scenarioRows (floatRow "?" []) i).Target) ∧
    Classify { k := 1, trainingData := some scenarioDataset } (floatRow "?" [9 / 10, 9 / 10])
      = .ok "A" :=
  ⟨Classify_nearest { k := 1, trainingData := some scenarioDataset } scenarioDataset
      (floatRow "?" [9 / 10, 9 / 10]) (rowAt scenarioRows (floatRow "?" [])) rfl rfl (by decide)
      rfl rfl (fun i hi => datasetOfRows_Row 2 true scenarioRows _ i hi),
    by
      norm_num [Classify, classifyScan, scenarioDataset, scenarioRows, datasetOfRows, floatRow,
        NewKNNTargetCollection, classifyLoop, KNNTargetCollection.MaxDistance,
        KNNTargetCollection.Insert, Euclidean, euclideanFrom, Distance.sqrt_lt_unbounded,
        Distance.not_unbounded_le_sqrt, Distance.not_unbounded_lt, Distance.max_sqrt_sqrt,
        Distance.le_unbounded, Distance.sqrt_lt_sqrt_iff, Distance.sqrt_le_sqrt_iff,
        largestDistance, evictWorst, KNNTargetCollection.Vote, majorityLabel, countLabel]⟩

/-- In exact arithmetic: when `k` is at least the number `N` of training rows, for a valid query
with no row-access failure the scan ends with the entries of all `N` training rows, in row order (every
row was inserted, none pruned or evicted), and `Classify` returns the `Vote` over that
collection of all the rows. -/
theorem Classify_all_retained {τ : Type} [DecidableEq τ] (c : kNNClassifier τ) (td : Dataset τ)
    (testRow : Row τ) (r : Nat → Row τ) (hk : 1 ≤ c.k) (htd : c.trainingData = some td)
    (hNk : (td.NumRows : Int) ≤ c.k) (hfeat : testRow.NumFeatures = td.NumFeatures)
    (hfloat : testRow.AllFeaturesFloats = true)
    (hrows : ∀ i, i < td.NumRows → td.Row i = .ok (r i)) :
    classifyScan c testRow
      = .ok { k := c.k,
              entries := (List.range td.NumRows).map
                (fun i => rowEntry testRow.UnsafeFloatFeatureValues (r i)) } ∧
    Classify c testRow
      = ({ k := c.k,
           entries := (List.range td.NumRows).map
             (fun i => rowEntry testRow.UnsafeFloatFeatureValues (r i)) } :
          KNNTargetCollection τ).Vote := by
  obtain ⟨nn, idxs, hscan, inv⟩ := classifyScan_inv c td testRow r hk htd hfeat hfloat hrows
  have hcast : ((c.k.toNat : Nat) : Int) = c.k := Int.toNat_of_nonneg (by omega)
  have hidx : idxs = List.range td.NumRows := inv.initial (by omega)
  have hnn : nn = KNNTargetCollection.mk c.k
      ((List.range td.NumRows).map
        (fun i => rowEntry testRow.UnsafeFloatFeatureValues (r i))) := by
    cases nn with
    | mk k entries =>
        have h1 := inv.k_eq
        have h2 := inv.entries_eq
        simp only at h1 h2
        rw [h1, h2, hcast, hidx]
  refine ⟨by rw [hscan, hnn], ?_⟩
  simp only [Classify, hscan, hnn]

/-- An instance of `Classify_all_retained`: the spec's scenario with `k = 3`, all three rows
retained, which gives `A`. -/
theorem Classify_all_retained_witness :
    (classifyScan { k := 3, trainingData := some scenarioDataset }
        (floatRow "?" [9 / 10, 9 / 10])
      = .ok { k := 3,
              entries := (List.range 3).map
                (fun i => rowEntry [9 / 10, 9 / 10] (rowAt scenarioRows (floatRow "?" []) i)) } ∧
    Classify { k := 3, trainingData := some scenarioDataset } (floatRow "?" [9 / 10, 9 / 10])
      = ({ k := 3,
           entries := (List.range 3).map
             (fun i => rowEntry [9 / 10, 9 / 10] (rowAt scenarioRows (floatRow "?" []) i)) } :
          KNNTargetCollection String).Vote) ∧
    ({ k := 3,
       entries := (List.range 3).map
         (fun i => rowEntry [9 / 10, 9 / 10] (rowAt scenarioRows (floatRow "?" []) i)) } :
      KNNTargetCollection String).Vote = .ok "A" :=
  ⟨Classify_all_retained { k := 3, trainingData := some scenarioDataset } scenarioDataset
      (floatRow "?" [9 / 10, 9 / 10]) (rowAt scenarioRows (floatRow "?" [])) (by decide) rfl
      (by decide) rfl rfl (fun i hi => datasetOfRows_Row 2 true scenarioRows _ i hi),
    rfl⟩

end classifier

/-! ## Validation of the query, failures of row access, and the receiver -/

namespace classifier

open knnutilities

/-- The loop of `Classify` stops with the error of the first row access that fails. -/
theorem classifyLoop_row_failure {τ : Type} (td : Dataset τ) (q : List ℚ) (r : Nat → Row τ)
    (i : Nat) (e : KNNError) (hfail : td.Row i = .error e) :
    ∀ (n i0 : Nat) (nn : KNNTargetCollection τ), i0 ≤ i → i < i0 + n →
      (∀ j, i0 ≤ j → j < i → td.Row j = .ok (r j)) →
      classifyLoop td q n i0 nn = .error e
  | 0, i0, _, h1, h2, _ => by omega
  | n + 1, i0, nn, h1, h2, hrows => by
      by_cases hi : i0 = i
      · subst hi
        simp only [classifyLoop, hfail]
      · have hrow : td.Row i0 = .ok (r i0) := hrows i0 (le_refl _) (by omega)
        have ih := fun nn' => classifyLoop_row_failure td q r i e hfail n (i0 + 1) nn'
          (by omega) (by omega) (fun j hj1 hj2 => hrows j (by omega) hj2)
        simp only [classifyLoop, hrow]
        split <;> exact ih _

/-- On every path through its body, `Classify` leaves the receiver as it found it and returns
what `Classify` returns. -/
theorem ClassifyCall_eq {τ : Type} [DecidableEq τ] (c : kNNClassifier τ) (testRow : Row τ) :
    ClassifyCall c testRow = (c, Classify c testRow) := by
  unfold ClassifyCall Classify classifyScan
  cases c.trainingData with
  | none => rfl
  | some td =>
      simp only
      split
      · rfl
      · split
        · rfl
        · cases NewKNNTargetCollection c.k with
          | error e => rfl
          | ok nn =>
              simp only
              cases classifyLoop td testRow.UnsafeFloatFeatureValues td.NumRows 0 nn <;> rfl

/-- The classifier's `k` is the same after any single call. -/
theorem applyCall_k {τ : Type} [DecidableEq τ] (c : kNNClassifier τ) (call : Call τ) :
    (applyCall c call).k = c.k := by
  cases call with
  | train ds =>
      simp only [applyCall, Train]
      split
      · rfl
      · split <;> rfl
  | classify testRow =>
      show (ClassifyCall c testRow).1.k = c.k
      rw [ClassifyCall_eq]

/-- The classifier's `k` is the same after any sequence of calls. -/
theorem runCalls_k {τ : Type} [DecidableEq τ] :
    ∀ (calls : List (Call τ)) (c : kNNClassifier τ), (runCalls c calls).k = c.k
  | [], _ => rfl
  | call :: calls, c => by
      rw [runCalls, List.foldl_cons]
      exact (runCalls_k calls (applyCall c call)).trans (applyCall_k c call)

/-- C11: for a trained classifier and a query row whose feature count differs from the training
set's, `Classify` fails with `RowLengthMismatchError` carrying the query's feature count and
then the training set's, and returns no label; this is so whatever the query's numeric flag is
and whatever row access would return (no training row is read). -/
theorem Classify_row_length_mismatch {τ : Type} [DecidableEq τ] (c : kNNClassifier τ)
    (td : Dataset τ) (testRow : Row τ) (htd : c.trainingData = some td)
    (hne : testRow.NumFeatures ≠ td.NumFeatures) :
    Classify c testRow
      = .error (.RowLengthMismatchError testRow.NumFeatures td.NumFeatures) ∧
    ∀ (numeric : Bool) (rowAccess : Nat → Except KNNError (Row τ)),
      Classify { c with trainingData := some { td with Row := rowAccess } }
          { testRow with AllFeaturesFloats := numeric }
        = .error (.RowLengthMismatchError testRow.NumFeatures td.NumFeatures) := by
  refine ⟨by simp [Classify, classifyScan, htd, hne], fun numeric rowAccess => ?_⟩
  simp [Classify, classifyScan, hne]

/-- Witness of C11: a query with 3 features against a training set with 4 features. -/
theorem Classify_row_length_mismatch_witness :
    Classify { k := 1, trainingData := some fourFeatureDataset } (floatRow "?" [1, 2, 3])
      = .error (.RowLengthMismatchError 3 4) :=
  (Classify_row_length_mismatch { k := 1, trainingData := some fourFeatureDataset }
    fourFeatureDataset (floatRow "?" [1, 2, 3]) rfl (by decide)).1

/-- C12: for a trained classifier and a query row whose feature count equals the training
set's and whose numeric flag is false, `Classify` fails with `NonFloatFeaturesTestRowError` and
returns no label, whatever row access would return (no training row is read). -/
theorem Classify_nonFloat_testRow {τ : Type} [DecidableEq τ] (c : kNNClassifier τ)
    (td : Dataset τ) (testRow : Row τ) (htd : c.trainingData = some td)
    (hfeat : testRow.NumFeatures = td.NumFeatures)
    (hfloat : testRow.AllFeaturesFloats = false) :
    Classify c testRow = .error .NonFloatFeaturesTestRowError ∧
    ∀ rowAccess : Nat → Except KNNError (Row τ),
      Classify { c with trainingData := some { td with Row := rowAccess } } testRow
        = .error .NonFloatFeaturesTestRowError := by
  refine ⟨by simp [Classify, classifyScan, htd, hfeat, hfloat], fun rowAccess => ?_⟩
  simp [Classify, classifyScan, hfeat, hfloat]

/-- Witness of C12: a non-numeric query with 2 features against the scenario dataset. -/
theorem Classify_nonFloat_testRow_witness :
    Classify { k := 1, trainingData := some scenarioDataset }
        { NumFeatures := 2, AllFeaturesFloats := false, Target := "?",
          UnsafeFloatFeatureValues := [] }
      = .error .NonFloatFeaturesTestRowError :=
  (Classify_nonFloat_testRow { k := 1, trainingData := some scenarioDataset } scenarioDataset
    _ rfl rfl rfl).1

/-- C13: for a trained classifier (with `k ≥ 1`) and a query that passes validation, if row
access fails at index `i` with error `e` and succeeds at every smaller index, the scan aborts:
`Classify` returns exactly `e` and no label, whatever was collected before; and the result is
the same for every dataset that agrees with this one up to row `i`, so no later row is
accessed. -/
theorem Classify_row_failure {τ : Type} [DecidableEq τ] (c : kNNClassifier τ) (td : Dataset τ)
    (testRow : Row τ) (r : Nat → Row τ) (i : Nat) (e : KNNError) (hk : 1 ≤ c.k)
    (htd : c.trainingData = some td) (hfeat : testRow.NumFeatures = td.NumFeatures)
    (hfloat : testRow.AllFeaturesFloats = true) (hi : i < td.NumRows)
    (hbefore : ∀ j, j < i → td.Row j = .ok (r j)) (hfail : td.Row i = .error e) :
    classifyScan c testRow = .error e ∧ Classify c testRow = .error e ∧
    ∀ td' : Dataset τ, td'.NumFeatures = td.NumFeatures → td'.NumRows = td.NumRows →
      (∀ j, j ≤ i → td'.Row j = td.Row j) →
      Classify { c with trainingData := some td' } testRow = .error e := by
  have hnot : ¬ c.k < 1 := by omega
  have key : ∀ td' : Dataset τ, td'.NumFeatures = td.NumFeatures →
      td'.NumRows = td.NumRows → (∀ j, j ≤ i → td'.Row j = td.Row j) →
      classifyScan { c with trainingData := some td' } testRow = .error e := by
    intro td' h1 h2 h3
    simp only [classifyScan, hfeat, h1, hfloat, NewKNNTargetCollection, hnot]
    simp only [ne_eq, not_true_eq_false, if_false, Bool.not_true, Bool.false_eq_true]
    exact classifyLoop_row_failure td' _ r i e ((h3 i (le_refl _)).trans hfail) td'.NumRows 0 _
      (Nat.zero_le _) (by omega) (fun j _ hj => (h3 j (le_of_lt hj)).trans (hbefore j hj))
  have hself : classifyScan c testRow = .error e := by
    have := key td rfl rfl (fun _ _ => rfl)
    have hc : ({ c with trainingData := some td } : kNNClassifier τ) = c := by
      cases c; simp only at htd; rw [htd]
    rwa [hc] at this
  refine ⟨hself, by simp only [Classify, hself], fun td' h1 h2 h3 => ?_⟩
  simp only [Classify, key td' h1 h2 h3]

/-- Witness of C13: row 0 of `failingDataset` is read and inserted, the access to row 1 fails
with the collaborator's error 7, and that error is the result. -/
theorem Classify_row_failure_witness :
    Classify { k := 2, trainingData := some failingDataset } (floatRow "?" [1, 1])
      = .error (.external 7) :=
  (Classify_row_failure { k := 2, trainingData := some failingDataset } failingDataset
    (floatRow "?" [1, 1]) (fun _ => floatRow "A" [0, 0]) 1 (.external 7) (by decide) rfl rfl rfl
    (by decide) (fun j hj => by
      have : j = 0 := by omega
      subst this
      rfl) rfl).2.1

/-- C14: `Classify` is read-only.  For every classifier and every query, on every path through
the body of `Classify` (the success path and each error exit), the classifier after the call
equals the classifier before it (same `k`, same training-data reference), the result is that of
`Classify`, and a second call with the same query returns the same label or the same error as
the first. -/
theorem ClassifyCall_readOnly {τ : Type} [DecidableEq τ] (c : kNNClassifier τ)
    (testRow : Row τ) :
    (ClassifyCall c testRow).1 = c ∧
    (ClassifyCall c testRow).1.k = c.k ∧
    (ClassifyCall c testRow).1.trainingData = c.trainingData ∧
    (ClassifyCall c testRow).2 = Classify c testRow ∧
    (ClassifyCall (ClassifyCall c testRow).1 testRow).2 = (ClassifyCall c testRow).2 := by
  have h := ClassifyCall_eq c testRow
  refine ⟨?_, ?_, ?_, ?_, ?_⟩
  · rw [h]
  · rw [h]
  · rw [h]
  · rw [h]
  · rw [h]
    exact congrArg Prod.snd h

/-- C18: `k` is fixed and valid for the whole life of a classifier.  For a classifier returned
by `NewKNNClassifier k` and any sequence of `Train` and `Classify` calls made on it, successful
or failing, the classifier's `k` is still the constructed `k` and is at least 1, so the
construction of the neighbour collection inside `Classify` succeeds. -/
theorem runCalls_k_fixed {τ : Type} [DecidableEq τ] (k : Int) (c0 : kNNClassifier τ)
    (hnew : NewKNNClassifier k = .ok c0) (calls : List (Call τ)) :
    (runCalls c0 calls).k = k ∧ 1 ≤ (runCalls c0 calls).k ∧
    (NewKNNTargetCollection (runCalls c0 calls).k : Except KNNError (KNNTargetCollection τ))
      = .ok { k := k, entries := [] } := by
  have hk : 1 ≤ k ∧ c0.k = k := by
    unfold NewKNNClassifier at hnew
    by_cases h : k < 1
    · simp [h] at hnew
    · simp only [h, if_false, Except.ok.injEq] at hnew
      exact ⟨by omega, by rw [← hnew]⟩
  have hrun : (runCalls c0 calls).k = k := (runCalls_k calls c0).trans hk.2
  have hnot : ¬ k < 1 := by omega
  refine ⟨hrun, by omega, ?_⟩
  rw [hrun, NewKNNTargetCollection, if_neg hnot]

/-- Witness of C18: a classifier constructed with `k = 2`, trained, queried, retrained on a
dataset without rows (which fails) and queried again. -/
theorem runCalls_k_fixed_witness :
    (runCalls ({ k := 2, trainingData := none } : kNNClassifier String)
        [.train scenarioDataset, .classify (floatRow "?" [9, 9]), .train emptyNumericDataset,
          .classify (floatRow "?" [1])]).k = 2 :=
  (runCalls_k_fixed 2 { k := 2, trainingData := none } rfl _).1

end classifier

/-! ## The order of the scan and the early exit of the distance -/

namespace classifier

open knnutilities

/-- The loop of `Classify` is the fold of `classifyStep` over the row indices
`i, i+1, ..., i+n-1`, in that order, stopping at the first row access that fails. -/
theorem classifyLoop_eq_foldlM {τ : Type} (td : Dataset τ) (q : List ℚ) :
    ∀ (n i : Nat) (nn : KNNTargetCollection τ),
      classifyLoop td q n i nn
        = (List.range' i n).foldlM
            (fun nn j => (td.Row j).map (fun row => classifyStep q row nn)) nn
  | 0, _, _ => rfl
  | n + 1, i, nn => by
      rw [List.range'_succ, List.foldlM_cons]
      cases hrow : td.Row i with
      | error e => simp only [classifyLoop, hrow]; rfl
      | ok row =>
          simp only [classifyLoop, hrow]
          have ih := classifyLoop_eq_foldlM td q n (i + 1) (classifyStep q row nn)
          show _ = (List.range' (i + 1) n).foldlM _ (classifyStep q row nn)
          rw [← ih]
          unfold classifyStep
          split <;> rfl

/-- C16: `Classify` visits the training rows in index order `0 .. N-1`, each exactly once: its
scan is the fold, over the list of indices `0, 1, ..., N-1`, of reading the row and applying
`classifyStep` to the collection, and its result is the vote of that fold.  For each row,
`classifyStep` is `Insert(row label, distance)` if the computed distance is strictly less than
the collection's `MaxDistance()` at that moment, and leaves the collection unchanged if the
distance equals or exceeds it. -/
theorem Classify_scan_order {τ : Type} [DecidableEq τ] (c : kNNClassifier τ) (td : Dataset τ)
    (testRow : Row τ) (hk : 1 ≤ c.k) (htd : c.trainingData = some td)
    (hfeat : testRow.NumFeatures = td.NumFeatures)
    (hfloat : testRow.AllFeaturesFloats = true) :
    classifyScan c testRow
      = (List.range td.NumRows).foldlM
          (fun nn i =>
            (td.Row i).map (fun row => classifyStep testRow.UnsafeFloatFeatureValues row nn))
          { k := c.k, entries := [] } ∧
    Classify c testRow
      = ((List.range td.NumRows).foldlM
          (fun nn i =>
            (td.Row i).map (fun row => classifyStep testRow.UnsafeFloatFeatureValues row nn))
          { k := c.k, entries := [] }) >>= (fun nn => nn.Vote) ∧
    ∀ (nn : KNNTargetCollection τ) (row : Row τ),
      (Euclidean testRow.UnsafeFloatFeatureValues row.UnsafeFloatFeatureValues nn.MaxDistance
          < nn.MaxDistance →
        classifyStep testRow.UnsafeFloatFeatureValues row nn
          = nn.Insert row.Target (Euclidean testRow.UnsafeFloatFeatureValues
              row.UnsafeFloatFeatureValues nn.MaxDistance)) ∧
      (nn.MaxDistance
          ≤ Euclidean testRow.UnsafeFloatFeatureValues row.UnsafeFloatFeatureValues
              nn.MaxDistance →
        classifyStep testRow.UnsafeFloatFeatureValues row nn = nn) := by
  have hnot : ¬ c.k < 1 := by omega
  have hscan : classifyScan c testRow
      = (List.range td.NumRows).foldlM
          (fun nn i =>
            (td.Row i).map (fun row => classifyStep testRow.UnsafeFloatFeatureValues row nn))
          { k := c.k, entries := [] } := by
    rw [List.range_eq_range', ← classifyLoop_eq_foldlM]
    simp [classifyScan, htd, hfeat, hfloat, NewKNNTargetCollection, hnot]
  refine ⟨hscan, ?_, fun nn row => ⟨fun h => ?_, fun h => ?_⟩⟩
  · rw [← hscan]
    unfold Classify
    cases classifyScan c testRow <;> rfl
  · unfold classifyStep; rw [if_pos h]
  · unfold classifyStep; rw [if_neg (not_lt.mpr h)]

/-- Witness of C16: the scan of the scenario dataset with `k = 1`. -/
theorem Classify_scan_order_witness :
    classifyScan { k := 1, trainingData := some scenarioDataset } (floatRow "?" [9, 9])
      = (List.range 3).foldlM
          (fun nn i => (scenarioDataset.Row i).map (fun row => classifyStep [9, 9] row nn))
          { k := 1, entries := [] } :=
  (Classify_scan_order { k := 1, trainingData := some scenarioDataset } scenarioDataset
    (floatRow "?" [9, 9]) (by decide) rfl rfl rfl).1

/-- The modelled `Euclidean` meets the contract of a distance function. -/
theorem Euclidean_contract : DistanceContract Euclidean :=
  fun a b bound => ⟨Euclidean_of_lt a b bound, Euclidean_of_le a b bound⟩

/-- Without early exit, a distance function that meets the contract returns the true
distance. -/
theorem noEarlyExit_eq (dist : List ℚ → List ℚ → Distance → Distance)
    (hdist : DistanceContract dist) :
    noEarlyExit dist = fun a b _ => trueDistance a b := by
  funext a b _
  exact (hdist a b Distance.unbounded).1 (Distance.sqrt_lt_unbounded _)

/-- With a distance function that meets the contract, the loop inserts the same entries and
ends with the same collection as the loop that computes every distance in full. -/
theorem classifyLoopWith_noEarlyExit {τ : Type}
    (dist : List ℚ → List ℚ → Distance → Distance) (hdist : DistanceContract dist)
    (td : Dataset τ) (q : List ℚ) :
    ∀ (n i : Nat) (nn : KNNTargetCollection τ) (inserted : List (NeighbourEntry τ)),
      classifyLoopWith dist td q n i nn inserted
        = classifyLoopWith (noEarlyExit dist) td q n i nn inserted
  | 0, _, _, _ => rfl
  | n + 1, i, nn, inserted => by
      cases hrow : td.Row i with
      | error e => simp only [classifyLoopWith, hrow]
      | ok row =>
          simp only [classifyLoopWith, hrow]
          have hfull : noEarlyExit dist q row.UnsafeFloatFeatureValues nn.MaxDistance
              = trueDistance q row.UnsafeFloatFeatureValues := by
            rw [noEarlyExit_eq dist hdist]
          rw [hfull]
          by_cases hlt : trueDistance q row.UnsafeFloatFeatureValues < nn.MaxDistance
          · rw [(hdist _ _ _).1 hlt, if_pos hlt, if_pos hlt]
            exact classifyLoopWith_noEarlyExit dist hdist td q n (i + 1) _ _
          · have hge : ¬ dist q row.UnsafeFloatFeatureValues nn.MaxDistance < nn.MaxDistance :=
              not_lt.mpr ((hdist _ _ _).2 (not_lt.mp hlt))
            rw [if_neg hge, if_neg hlt]
            exact classifyLoopWith_noEarlyExit dist hdist td q n (i + 1) _ _

/-- The loop of `Classify` is the loop with `Euclidean` as distance function, the record of
the inserted entries being dropped. -/
theorem classifyLoop_eq_classifyLoopWith {τ : Type} (td : Dataset τ) (q : List ℚ) :
    ∀ (n i : Nat) (nn : KNNTargetCollection τ) (inserted : List (NeighbourEntry τ)),
      classifyLoop td q n i nn
        = (classifyLoopWith Euclidean td q n i nn inserted).map Prod.fst
  | 0, _, _, _ => rfl
  | n + 1, i, nn, inserted => by
      cases hrow : td.Row i with
      | error e => simp only [classifyLoop, classifyLoopWith, hrow]; rfl
      | ok row =>
          simp only [classifyLoop, classifyLoopWith, hrow]
          split
          · exact classifyLoop_eq_classifyLoopWith td q n (i + 1) _ _
          · exact classifyLoop_eq_classifyLoopWith td q n (i + 1) _ _

/-- The scan of `Classify` is the scan with `Euclidean` as distance function. -/
theorem classifyScan_eq_classifyScanWith {τ : Type} (c : kNNClassifier τ) (testRow : Row τ) :
    classifyScan c testRow = (classifyScanWith Euclidean c testRow).map Prod.fst := by
  unfold classifyScan classifyScanWith
  cases c.trainingData with
  | none => rfl
  | some td =>
      simp only
      split
      · rfl
      · split
        · rfl
        · cases NewKNNTargetCollection c.k with
          | error e => rfl
          | ok nn => exact classifyLoop_eq_classifyLoopWith td _ _ _ _ _

/-- `Classify` is `ClassifyWith` with `Euclidean` as distance function. -/
theorem Classify_eq_ClassifyWith {τ : Type} [DecidableEq τ] (c : kNNClassifier τ)
    (testRow : Row τ) : Classify c testRow = ClassifyWith Euclidean c testRow := by
  unfold Classify ClassifyWith
  rw [classifyScan_eq_classifyScanWith]
  cases classifyScanWith Euclidean c testRow <;> rfl

/-- With a distance function that meets the contract, the scan gives the same result as the
scan that computes every distance in full. -/
theorem classifyScanWith_noEarlyExit {τ : Type}
    (dist : List ℚ → List ℚ → Distance → Distance) (hdist : DistanceContract dist)
    (c : kNNClassifier τ) (testRow : Row τ) :
    classifyScanWith dist c testRow = classifyScanWith (noEarlyExit dist) c testRow := by
  unfold classifyScanWith
  cases c.trainingData with
  | none => rfl
  | some td =>
      simp only
      split
      · rfl
      · split
        · rfl
        · cases NewKNNTargetCollection c.k with
          | error e => rfl
          | ok nn => exact classifyLoopWith_noEarlyExit dist hdist td _ _ _ _ _

/-- C15: the early-exit bound does not change the outcome.  For every distance function that
returns the true Euclidean distance when it is below the bound and some value at or above the
bound otherwise, every classifier and every query, the sequence of inserted entries and the
final collection, and the label (or error) returned, are those obtained when every distance is
computed in full (bound = unbounded); and they are what the scan of `Classify` and `Classify`
itself produce. -/
theorem Classify_early_exit {τ : Type} [DecidableEq τ]
    (dist : List ℚ → List ℚ → Distance → Distance) (hdist : DistanceContract dist)
    (c : kNNClassifier τ) (testRow : Row τ) :
    classifyScanWith dist c testRow = classifyScanWith (noEarlyExit dist) c testRow ∧
    ClassifyWith dist c testRow = ClassifyWith (noEarlyExit dist) c testRow ∧
    classifyScan c testRow = (classifyScanWith (noEarlyExit dist) c testRow).map Prod.fst ∧
    Classify c testRow = ClassifyWith (noEarlyExit dist) c testRow := by
  have h1 := classifyScanWith_noEarlyExit dist hdist c testRow
  have h2 := classifyScanWith_noEarlyExit Euclidean Euclidean_contract c testRow
  have h3 : noEarlyExit Euclidean = noEarlyExit dist := by
    rw [noEarlyExit_eq dist hdist, noEarlyExit_eq Euclidean Euclidean_contract]
  rw [h3] at h2
  refine ⟨h1, ?_, ?_, ?_⟩
  · unfold ClassifyWith; rw [h1]
  · rw [classifyScan_eq_classifyScanWith, h2]
  · rw [Classify_eq_ClassifyWith]; unfold ClassifyWith; rw [h2]

/-- Witness of C15: the modelled `Euclidean` on the scenario dataset with `k = 1`. -/
theorem Classify_early_exit_witness :
    classifyScanWith Euclidean { k := 1, trainingData := some scenarioDataset }
        (floatRow "?" [9, 9])
      = classifyScanWith (noEarlyExit Euclidean)
          { k := 1, trainingData := some scenarioDataset } (floatRow "?" [9, 9]) ∧
    Classify { k := 1, trainingData := some scenarioDataset } (floatRow "?" [9, 9])
      = ClassifyWith (noEarlyExit Euclidean)
          { k := 1, trainingData := some scenarioDataset } (floatRow "?" [9, 9]) :=
  ⟨(Classify_early_exit Euclidean Euclidean_contract
      { k := 1, trainingData := some scenarioDataset } (floatRow "?" [9, 9])).1,
    (Classify_early_exit Euclidean Euclidean_contract
      { k := 1, trainingData := some scenarioDataset } (floatRow "?" [9, 9])).2.2.2⟩

end classifier

/-! ## The vote has something to count, and the order of the rows -/

namespace classifier

open knnutilities

/-- In exact arithmetic: an empty neighbour collection cannot occur at vote time.  For a
classifier with `k ≥ 1` on which `Train` has just succeeded (so the dataset has at least one row), and a query
that passes validation with no row-access failure: the first row is inserted into the empty
collection (its bound is unbounded), the collection left by the scan is not empty, and
`Classify` returns a label, not the empty-collection error. -/
theorem Classify_not_empty {τ : Type} [DecidableEq τ] (c : kNNClassifier τ) (td : Dataset τ)
    (testRow : Row τ) (r : Nat → Row τ) (hk : 1 ≤ c.k) (htrain : (Train c td).2 = none)
    (hfeat : testRow.NumFeatures = td.NumFeatures) (hfloat : testRow.AllFeaturesFloats = true)
    (hrows : ∀ i, i < td.NumRows → td.Row i = .ok (r i)) :
    classifyLoop td testRow.UnsafeFloatFeatureValues 1 0 { k := c.k, entries := [] }
      = .ok { k := c.k, entries := [rowEntry testRow.UnsafeFloatFeatureValues (r 0)] } ∧
    (∃ (nn : KNNTargetCollection τ) (label : τ),
      classifyScan (Train c td).1 testRow = .ok nn ∧ nn.entries ≠ [] ∧
      Classify (Train c td).1 testRow = .ok label) ∧
    Classify (Train c td).1 testRow ≠ .error .EmptyCollection := by
  have htr : (Train c td).1.trainingData = some td ∧ (Train c td).1.k = c.k ∧
      td.NumRows ≠ 0 := by
    unfold Train at htrain ⊢
    cases hflag : td.AllFeaturesFloats <;> by_cases hn : td.NumRows = 0 <;>
      simp [hflag, hn] at htrain ⊢
  obtain ⟨htd, hkeq, hN0⟩ := htr
  have hN : 1 ≤ td.NumRows := by omega
  have hcast : ((c.k.toNat : Nat) : Int) = c.k := Int.toNat_of_nonneg (by omega)
  have hK : 1 ≤ c.k.toNat := by omega
  have hfirst : classifyLoop td testRow.UnsafeFloatFeatureValues 1 0
      { k := c.k, entries := [] }
      = .ok { k := c.k, entries := [rowEntry testRow.UnsafeFloatFeatureValues (r 0)] } := by
    obtain ⟨nn1, idxs1, hloop, inv1⟩ :=
      classifyLoop_inv td testRow.UnsafeFloatFeatureValues r c.k.toNat hK 1 0
        { k := (c.k.toNat : Int), entries := [] } [] (ScanInv.start _ _ _ hK)
        (fun j _ hj => hrows j (by omega))
    rw [hcast] at hloop
    rw [hloop]
    have hidx : idxs1 = [0] := inv1.initial hK
    cases nn1 with
    | mk k entries =>
        have h1 := inv1.k_eq
        have h2 := inv1.entries_eq
        simp only at h1 h2
        rw [h1, h2, hcast, hidx]
        rfl
  obtain ⟨nn, idxs, hscan, inv⟩ :=
    classifyScan_inv (Train c td).1 td testRow r (by rw [hkeq]; exact hk) htd hfeat hfloat hrows
  rw [hkeq] at inv
  have hpos : 0 < idxs.length := by
    rcases le_total td.NumRows c.k.toNat with h | h
    · rw [inv.initial h, List.length_range]; omega
    · rw [inv.full h]; omega
  have hne : nn.entries ≠ [] := by
    rw [inv.entries_eq]
    intro hempty
    rw [List.map_eq_nil_iff] at hempty
    rw [hempty] at hpos
    simp at hpos
  obtain ⟨e, es, hes⟩ := List.exists_cons_of_ne_nil hne
  have hres : Classify (Train c td).1 testRow = .ok (majorityLabel e es) := by
    simp only [Classify, hscan, KNNTargetCollection.Vote, hes]
  refine ⟨hfirst, ⟨nn, majorityLabel e es, hscan, hne, hres⟩, ?_⟩
  rw [hres]
  exact fun h => by cases h

/-- An instance of `Classify_not_empty`: a classifier with `k = 2` trained on the scenario
dataset. -/
theorem Classify_not_empty_witness :
    Classify
        (Train ({ k := 2, trainingData := none } : kNNClassifier String) scenarioDataset).1
        (floatRow "?" [9, 9])
      ≠ .error .EmptyCollection :=
  (Classify_not_empty { k := 2, trainingData := none } scenarioDataset (floatRow "?" [9, 9])
    (rowAt scenarioRows (floatRow "?" [])) (by decide) rfl rfl rfl
    (fun i hi => datasetOfRows_Row 2 true scenarioRows _ i hi)).2.2

/-- Among the entries `A₁` of all the rows, taken in two orders `A₁` and `A₂` and with pairwise
distinct keys, two selections of the same size, each of which leaves out only entries at least
as far as every entry it holds, hold the same entries. -/
theorem nearest_unique {α : Type} (key : α → Distance) (A₁ A₂ E₁ E₂ : List α)
    (hperm : A₁.Perm A₂) (hkeys : (A₁.map key).Nodup) (hE₁ : E₁ ⊆ A₁) (hE₂ : E₂ ⊆ A₂)
    (hn₁ : E₁.Nodup) (hn₂ : E₂.Nodup) (hlen : E₁.length = E₂.length)
    (hP₁ : ∀ x ∈ A₁, x ∉ E₁ → ∀ y ∈ E₁, key y ≤ key x)
    (hP₂ : ∀ x ∈ A₂, x ∉ E₂ → ∀ y ∈ E₂, key y ≤ key x) : E₁.Perm E₂ := by
  have hsub : E₁ ⊆ E₂ := by
    intro x hx
    by_contra hx2
    have hxA1 : x ∈ A₁ := hE₁ hx
    have hxA2 : x ∈ A₂ := hperm.mem_iff.mp hxA1
    have hsub21 : E₂ ⊆ E₁ := by
      intro y hy
      by_contra hy1
      have hyA1 : y ∈ A₁ := hperm.mem_iff.mpr (hE₂ hy)
      have h1 : key x ≤ key y := hP₁ y hyA1 hy1 x hx
      have h2 : key y ≤ key x := hP₂ x hxA2 hx2 y hy
      have hxy : x = y := List.inj_on_of_nodup_map hkeys hxA1 hyA1 (le_antisymm h1 h2)
      exact hx2 (hxy ▸ hy)
    have hp : E₂.Perm E₁ :=
      (List.subperm_of_subset hn₂ hsub21).perm_of_length_le (le_of_eq hlen)
    exact hx2 (hp.mem_iff.mpr hx)
  exact (List.subperm_of_subset hn₁ hsub).perm_of_length_le (le_of_eq hlen.symm)

/-- When the distances of the rows to the query are pairwise distinct, the entries left by the
scan are distinct entries of rows of the dataset, and every row left out is at least as far as
every entry held. -/
theorem ScanInv.retained {τ : Type} {K : Nat} {q : List ℚ} {r : Nat → Row τ} {N : Nat}
    {nn : KNNTargetCollection τ} {idxs : List Nat} (inv : ScanInv K q r N nn idxs)
    (hdist : ((List.range N).map (fun i => (rowEntry q (r i)).distance)).Nodup) :
    nn.entries ⊆ (List.range N).map (fun i => rowEntry q (r i)) ∧ nn.entries.Nodup ∧
    ∀ x ∈ (List.range N).map (fun i => rowEntry q (r i)), x ∉ nn.entries →
      ∀ y ∈ nn.entries, y.distance ≤ x.distance := by
  have hinj : ∀ m, m < N → ∀ j, j < N → rowEntry q (r m) = rowEntry q (r j) → m = j :=
    fun m hm j hj h =>
      List.inj_on_of_nodup_map hdist (List.mem_range.mpr hm) (List.mem_range.mpr hj)
        (congrArg NeighbourEntry.distance h)
  rw [inv.entries_eq]
  refine ⟨?_, ?_, ?_⟩
  · intro x hx
    obtain ⟨m, hm, rfl⟩ := List.mem_map.mp hx
    exact List.mem_map.mpr ⟨m, List.mem_range.mpr (inv.seen m hm), rfl⟩
  · exact List.Nodup.map_on
      (fun m hm j hj h => hinj m (inv.seen m hm) j (inv.seen j hj) h)
      (inv.sorted.imp (fun h => ne_of_lt h))
  · intro x hx hnot y hy
    obtain ⟨j, hj, rfl⟩ := List.mem_map.mp hx
    obtain ⟨m, hm, rfl⟩ := List.mem_map.mp hy
    have hjn : j ∉ idxs := fun h => hnot (List.mem_map.mpr ⟨j, h, rfl⟩)
    rcases inv.nearest j (List.mem_range.mp hj) hjn m hm with h | ⟨h, _⟩
    · exact le_of_lt h
    · exact le_of_eq h

end classifier

namespace classifier

open knnutilities

/-- C19: scan order matters only for ties.  Take two trained classifiers with the same `k ≥ 1`
whose datasets hold the same rows in two different orders (one row list is a permutation of the
other), and a valid query, with no row-access failure.  If the Euclidean distances from the
query to the training rows are pairwise distinct, the two scans retain the same entries: the
collections are permutations of one another, an entry is held by one exactly when it is held by
the other, and there are `min k N` of them. -/
theorem Classify_order_independent {τ : Type} (c c' : kNNClassifier τ) (td td' : Dataset τ)
    (testRow : Row τ) (r r' : Nat → Row τ) (hk : 1 ≤ c.k) (hk' : c'.k = c.k)
    (htd : c.trainingData = some td) (htd' : c'.trainingData = some td')
    (hfeat : testRow.NumFeatures = td.NumFeatures)
    (hfeat' : testRow.NumFeatures = td'.NumFeatures)
    (hfloat : testRow.AllFeaturesFloats = true)
    (hrows : ∀ i, i < td.NumRows → td.Row i = .ok (r i))
    (hrows' : ∀ i, i < td'.NumRows → td'.Row i = .ok (r' i))
    (hperm : ((List.range td'.NumRows).map r').Perm ((List.range td.NumRows).map r))
    (hdist : ((List.range td.NumRows).map
      (fun i => trueDistance testRow.UnsafeFloatFeatureValues
        (r i).UnsafeFloatFeatureValues)).Nodup) :
    ∃ nn nn' : KNNTargetCollection τ,
      classifyScan c testRow = .ok nn ∧ classifyScan c' testRow = .ok nn' ∧
      nn'.entries.Perm nn.entries ∧ (∀ e, e ∈ nn'.entries ↔ e ∈ nn.entries) ∧
      (nn.entries.length : Int) = min c.k (td.NumRows : Int) := by
  obtain ⟨nn, idxs, hscan, inv⟩ := classifyScan_inv c td testRow r hk htd hfeat hfloat hrows
  obtain ⟨nn', idxs', hscan', inv'⟩ :=
    classifyScan_inv c' td' testRow r' (by rw [hk']; exact hk) htd' hfeat' hfloat hrows'
  rw [hk'] at inv'
  have hN : td'.NumRows = td.NumRows := by
    have := hperm.length_eq
    simpa using this
  have hcast : ((c.k.toNat : Nat) : Int) = c.k := Int.toNat_of_nonneg (by omega)
  have hlen : ∀ (N : Nat) (m : KNNTargetCollection τ) (l : List Nat) (ρ : Nat → Row τ),
      ScanInv c.k.toNat testRow.UnsafeFloatFeatureValues ρ N m l →
      m.entries.length = min c.k.toNat N := by
    intro N m l ρ h
    rw [h.entries_eq, List.length_map]
    rcases le_total N c.k.toNat with hle | hle
    · rw [h.initial hle, List.length_range, min_eq_right hle]
    · rw [h.full hle, min_eq_left hle]
  have hpermA : ((List.range td'.NumRows).map
        (fun i => rowEntry testRow.UnsafeFloatFeatureValues (r' i))).Perm
      ((List.range td.NumRows).map
        (fun i => rowEntry testRow.UnsafeFloatFeatureValues (r i))) := by
    have := hperm.map (rowEntry testRow.UnsafeFloatFeatureValues)
    simpa only [List.map_map, Function.comp_def] using this
  have hdistA : ((List.range td.NumRows).map
      (fun i => (rowEntry testRow.UnsafeFloatFeatureValues (r i)).distance)).Nodup := hdist
  have hdistA' : ((List.range td'.NumRows).map
      (fun i => (rowEntry testRow.UnsafeFloatFeatureValues (r' i)).distance)).Nodup := by
    have hp := hpermA.map NeighbourEntry.distance
    simp only [List.map_map, Function.comp_def] at hp
    exact hp.nodup_iff.mpr hdistA
  obtain ⟨hsub, hnd, hP⟩ := inv.retained hdistA
  obtain ⟨hsub', hnd', hP'⟩ := inv'.retained hdistA'
  have hkeys : (((List.range td'.NumRows).map
      (fun i => rowEntry testRow.UnsafeFloatFeatureValues (r' i))).map
        NeighbourEntry.distance).Nodup := by
    simpa only [List.map_map, Function.comp_def] using hdistA'
  have hp : nn'.entries.Perm nn.entries :=
    nearest_unique NeighbourEntry.distance _ _ _ _ hpermA hkeys hsub' hsub hnd' hnd
      (by rw [hlen _ _ _ _ inv', hlen _ _ _ _ inv, hN]) hP' hP
  refine ⟨nn, nn', hscan, hscan', hp, fun e => hp.mem_iff, ?_⟩
  rw [hlen _ _ _ _ inv, ← hcast]
  exact_mod_cast rfl

/-- Witness of C19: the scenario rows in two orders, `k = 2`, query `[9, 9]`; the squared
distances 162, 2 and 128 are distinct. -/
theorem Classify_order_independent_witness :
    ∃ nn nn' : KNNTargetCollection String,
      classifyScan { k := 2, trainingData := some scenarioDataset } (floatRow "?" [9, 9])
        = .ok nn ∧
      classifyScan { k := 2, trainingData := some permutedScenarioDataset }
          (floatRow "?" [9, 9]) = .ok nn' ∧
      nn'.entries.Perm nn.entries ∧ (∀ e, e ∈ nn'.entries ↔ e ∈ nn.entries) ∧
      (nn.entries.length : Int) = min 2 3 :=
  Classify_order_independent { k := 2, trainingData := some scenarioDataset }
    { k := 2, trainingData := some permutedScenarioDataset } scenarioDataset
    permutedScenarioDataset (floatRow "?" [9, 9]) (rowAt scenarioRows (floatRow "?" []))
    (rowAt permutedScenarioRows (floatRow "?" [])) (by decide) rfl rfl rfl rfl rfl rfl
    (fun i hi => datasetOfRows_Row 2 true scenarioRows _ i hi)
    (fun i hi => datasetOfRows_Row 2 true permutedScenarioRows _ i hi)
    (by
      show List.Perm [floatRow "A" [1, 1], floatRow "A" [0, 0], floatRow "B" [10, 10]]
        [floatRow "A" [0, 0], floatRow "B" [10, 10], floatRow "A" [1, 1]]
      exact (List.Perm.swap _ _ _).trans ((List.Perm.swap _ _ _).cons _))
    (by
      show ([trueDistance [9, 9] [0, 0], trueDistance [9, 9] [10, 10],
        trueDistance [9, 9] [1, 1]] : List Distance).Nodup
      norm_num [trueDistance, sumSquaredDifferences])

end classifier

/-! ## The scan on float64 values -/

namespace knnutilities

theorem Insert_k {τ : Type} (nn : KNNTargetCollection τ) (label : τ) (d : Distance) :
    (nn.Insert label d).k = nn.k := by
  unfold KNNTargetCollection.Insert
  split
  · rfl
  · split <;> rfl

theorem Insert_entries_ne_nil {τ : Type} (nn : KNNTargetCollection τ) (label : τ)
    (d : Distance) (h : nn.entries ≠ [] ∨ 1 ≤ nn.k) : (nn.Insert label d).entries ≠ [] := by
  unfold KNNTargetCollection.Insert
  split
  · simp
  · split
    · simp
    · rename_i hnot _
      rcases h with h | h
      · exact h
      · intro hempty
        rw [hempty] at hnot
        simp at hnot
        omega

/-- A square root computed on float64 values is never negative. -/
theorem Float64_sqrt_nonneg (x : Float64) (d : Distance) (h : Float64.sqrt x = .value d) :
    Distance.sqrt 0 ≤ d := by
  cases x with
  | finite a =>
      simp only [Float64.sqrt] at h
      by_cases hneg : a < 0
      · rw [if_pos hneg] at h
        cases h
      · rw [if_neg hneg] at h
        cases h
        exact (Distance.sqrt_le_sqrt_iff _ _).2 (not_lt.mp hneg)
  | posInf =>
      cases h
      exact Distance.le_unbounded _
  | negInf => cases h
  | nan => cases h

theorem euclidean64From_nonneg (bound : Distance) :
    ∀ (a b : List Float64) (acc : Float64) (d : Distance),
      euclidean64From bound acc a b = .value d → Distance.sqrt 0 ≤ d
  | [], _, acc, d, h => by
      simp only [euclidean64From] at h
      exact Float64_sqrt_nonneg acc d h
  | _ :: _, [], acc, d, h => by
      simp only [euclidean64From] at h
      exact Float64_sqrt_nonneg acc d h
  | a :: as, b :: bs, acc, d, h => by
      simp only [euclidean64From] at h
      split at h
      · exact Float64_sqrt_nonneg _ d h
      · exact euclidean64From_nonneg bound as bs _ d h

/-- The modelled `Euclidean64` returns no negative value. -/
theorem Euclidean64_nonneg : classifier.NonNegativeDistance Euclidean64 :=
  fun a b bound d h => euclidean64From_nonneg bound a b _ d h

/-- On finite values the running sum of `Euclidean64` is that of `Euclidean`. -/
theorem euclidean64From_finite (bound : Distance) :
    ∀ (a b : List ℚ) (acc : ℚ), 0 ≤ acc →
      euclidean64From bound (Float64.finite acc) (a.map Float64.finite) (b.map Float64.finite)
        = .value (euclideanFrom bound acc a b)
  | [], _, acc, h => by
      simp [euclidean64From, euclideanFrom, Float64.sqrt, not_lt.mpr h]
  | _ :: _, [], acc, h => by
      simp [euclidean64From, euclideanFrom, Float64.sqrt, not_lt.mpr h]
  | a :: as, b :: bs, acc, h => by
      have hacc : 0 ≤ acc + (a - b) ^ 2 := by positivity
      have ih := euclidean64From_finite bound as bs (acc + (a - b) ^ 2) hacc
      simp only [List.map_cons, euclidean64From, euclideanFrom, Float64.sub, Float64.square,
        Float64.add, Float64.sqrt, not_lt.mpr hacc, if_false, Float64Distance.ge,
        decide_eq_true_eq]
      split
      · rfl
      · exact ih

/-- On finite vectors `Euclidean64` is `Euclidean`. -/
theorem Euclidean64_finite (a b : List ℚ) (bound : Distance) :
    Euclidean64 (a.map Float64.finite) (b.map Float64.finite) bound
      = .value (Euclidean a b bound) :=
  euclidean64From_finite bound a b 0 (le_refl _)

/-- Without bound, `Euclidean` returns the true distance. -/
theorem Euclidean_unbounded (a b : List ℚ) :
    Euclidean a b Distance.unbounded = trueDistance a b :=
  Euclidean_of_lt a b _ (Distance.sqrt_lt_unbounded _)

/-- On finite vectors the modelled `Euclidean64` meets the early-exit contract. -/
theorem Euclidean64_contract (a b : List ℚ) :
    classifier.EarlyExitContract Euclidean64 (a.map Float64.finite) (b.map Float64.finite) := by
  intro bound d hd
  rw [Euclidean64_finite, Euclidean64_finite, Euclidean_unbounded]
  simp only [Float64Distance.value.injEq]
  constructor
  · intro h
    have hlt : Euclidean a b bound < bound := h ▸ hd
    rw [← h, Euclidean_of_lt a b bound ((Euclidean_lt_iff a b bound).1 hlt)]
  · intro h
    rw [Euclidean_of_lt a b bound (h ▸ hd), h]

/-- A list of finite float64 values is the image of a list of rationals. -/
theorem exists_map_finite :
    ∀ a : List Float64, (∀ x ∈ a, ∃ v, x = Float64.finite v) →
      ∃ a' : List ℚ, a = a'.map Float64.finite
  | [], _ => ⟨[], rfl⟩
  | x :: xs, h => by
      obtain ⟨v, rfl⟩ := h x (List.mem_cons_self _ _)
      obtain ⟨xs', rfl⟩ := exists_map_finite xs (fun y hy => h y (List.mem_cons_of_mem _ hy))
      exact ⟨v :: xs', rfl⟩

/-- The modelled `Euclidean64` gives distance zero from a finite vector to itself. -/
theorem Euclidean64_self : classifier.SelfDistanceZero Euclidean64 := by
  intro a ha
  obtain ⟨a', rfl⟩ := exists_map_finite a ha
  rw [Euclidean64_finite, Euclidean_unbounded, trueDistance_self]

end knnutilities

namespace classifier

open knnutilities

/-- One iteration of the float64 loop whose row access succeeds. -/
theorem classifyLoop64_succ {τ : Type}
    (dist : List Float64 → List Float64 → Distance → Float64Distance) (td : Dataset64 τ)
    (q : List Float64) (n i : Nat) (nn : KNNTargetCollection τ) (row : Row64 τ)
    (hrow : td.Row i = .ok row) :
    classifyLoop64 dist td q (n + 1) i nn
      = classifyLoop64 dist td q n (i + 1) (classifyStep64 dist q row nn) := by
  simp only [classifyLoop64, hrow, classifyStep64]
  split
  · split <;> rfl
  · rfl

theorem classifyStep64_k {τ : Type}
    (dist : List Float64 → List Float64 → Distance → Float64Distance) (q : List Float64)
    (row : Row64 τ) (nn : KNNTargetCollection τ) : (classifyStep64 dist q row nn).k = nn.k := by
  unfold classifyStep64
  split
  · split
    · exact Insert_k _ _ _
    · rfl
  · rfl

theorem classifyStep64_entries_ne_nil {τ : Type}
    (dist : List Float64 → List Float64 → Distance → Float64Distance) (q : List Float64)
    (row : Row64 τ) (nn : KNNTargetCollection τ) (h : nn.entries ≠ []) :
    (classifyStep64 dist q row nn).entries ≠ [] := by
  unfold classifyStep64
  split
  · split
    · exact Insert_entries_ne_nil _ _ _ (Or.inl h)
    · exact h
  · exact h

/-- A row whose distance, computed in full, is finite is inserted into an empty collection. -/
theorem classifyStep64_of_empty {τ : Type}
    (dist : List Float64 → List Float64 → Distance → Float64Distance) (q : List Float64)
    (row : Row64 τ) (nn : KNNTargetCollection τ) (hk : 1 ≤ nn.k) (hempty : nn.entries = [])
    (hfin : (dist q row.UnsafeFloatFeatureValues Distance.unbounded).IsFinite) :
    (classifyStep64 dist q row nn).entries ≠ [] := by
  have hcond : (nn.entries.length : Int) < nn.k := by rw [hempty]; simpa using hk
  obtain ⟨d, hd, hlt⟩ := hfin
  unfold classifyStep64
  rw [MaxDistance_of_lt nn hcond, hd]
  simp only [hlt, if_true]
  exact Insert_entries_ne_nil _ _ _ (Or.inr hk)

/-- When no row access fails, the float64 loop runs to the end; the collection it leaves is not
empty if it was not empty at the start, or if some remaining row has a finite computed
distance. -/
theorem classifyLoop64_ne_nil {τ : Type}
    (dist : List Float64 → List Float64 → Distance → Float64Distance) (td : Dataset64 τ)
    (q : List Float64) (r : Nat → Row64 τ) :
    ∀ (n i : Nat) (nn : KNNTargetCollection τ),
      (∀ j, i ≤ j → j < i + n → td.Row j = .ok (r j)) →
      (nn.entries ≠ [] ∨ (1 ≤ nn.k ∧ ∃ j, i ≤ j ∧ j < i + n ∧
        (dist q (r j).UnsafeFloatFeatureValues Distance.unbounded).IsFinite)) →
      ∃ nn', classifyLoop64 dist td q n i nn = .ok nn' ∧ nn'.entries ≠ []
  | 0, i, nn, _, h => by
      rcases h with h | ⟨_, j, h1, h2, _⟩
      · exact ⟨nn, rfl, h⟩
      · omega
  | n + 1, i, nn, hrows, h => by
      rw [classifyLoop64_succ dist td q n i nn (r i) (hrows i (le_refl _) (by omega))]
      apply classifyLoop64_ne_nil dist td q r n (i + 1) _
        (fun j h1 h2 => hrows j (by omega) (by omega))
      by_cases hne : nn.entries = []
      · rcases h with h | ⟨hk, j, h1, h2, hfin⟩
        · exact absurd hne h
        · by_cases hji : j = i
          · subst hji
            exact Or.inl (classifyStep64_of_empty dist q (r j) nn hk hne hfin)
          · exact Or.inr ⟨by rw [classifyStep64_k]; exact hk, j, by omega, by omega, hfin⟩
      · exact Or.inl (classifyStep64_entries_ne_nil dist q (r i) nn hne)

/-- While the collection has room, the float64 loop inserts every row whose distance, computed
in full, is finite. -/
theorem classifyLoop64_all {τ : Type}
    (dist : List Float64 → List Float64 → Distance → Float64Distance) (td : Dataset64 τ)
    (q : List Float64) (r : Nat → Row64 τ) (K : Int) :
    ∀ (n i : Nat), ((i + n : Nat) : Int) ≤ K →
      (∀ j, i ≤ j → j < i + n → td.Row j = .ok (r j)) →
      (∀ j, i ≤ j → j < i + n →
        (dist q (r j).UnsafeFloatFeatureValues Distance.unbounded).IsFinite) →
      classifyLoop64 dist td q n i
          { k := K, entries := (List.range i).map (fun m => rowEntry64 dist q (r m)) }
        = .ok { k := K,
                entries := (List.range (i + n)).map (fun m => rowEntry64 dist q (r m)) }
  | 0, _, _, _, _ => rfl
  | n + 1, i, hK, hrows, hfin => by
      rw [classifyLoop64_succ dist td q n i _ (r i) (hrows i (le_refl _) (by omega))]
      have hcond : (((KNNTargetCollection.mk K
          ((List.range i).map (fun m => rowEntry64 dist q (r m)))).entries.length : Nat) : Int)
          < (KNNTargetCollection.mk K
              ((List.range i).map (fun m => rowEntry64 dist q (r m)))).k := by
        simp only [List.length_map, List.length_range]
        omega
      obtain ⟨d, hd, hlt⟩ := hfin i (le_refl _) (by omega)
      have hstep : classifyStep64 dist q (r i)
          (KNNTargetCollection.mk K ((List.range i).map (fun m => rowEntry64 dist q (r m))))
          = KNNTargetCollection.mk K
              ((List.range (i + 1)).map (fun m => rowEntry64 dist q (r m))) := by
        unfold classifyStep64
        rw [MaxDistance_of_lt _ hcond, hd]
        simp only [hlt, if_true]
        rw [Insert_of_lt _ _ _ hcond, List.range_succ, List.map_append]
        simp only [List.map_cons, List.map_nil, rowEntry64, hd, Float64Distance.toDistance]
      rw [hstep]
      have := classifyLoop64_all dist td q r K n (i + 1) (by
          have : i + 1 + n = i + (n + 1) := by omega
          rw [this]; exact hK)
        (fun j h1 h2 => hrows j (by omega) (by omega))
        (fun j h1 h2 => hfin j (by omega) (by omega))
      rw [this]
      have : i + 1 + n = i + (n + 1) := by omega
      rw [this]

end classifier

namespace classifier

open knnutilities

theorem BestInv_start {τ : Type}
    (dist : List Float64 → List Float64 → Distance → Float64Distance) (q : List Float64)
    (r : Nat → Row64 τ) :
    BestInv dist q r 0 ({ k := 1, entries := [] } : KNNTargetCollection τ) :=
  ⟨rfl, Or.inl ⟨rfl, fun j hj => absurd hj (Nat.not_lt_zero j)⟩⟩

/-- One iteration of the float64 scan with `k = 1` keeps `BestInv`, for a distance function
that meets the early-exit contract at the row. -/
theorem BestInv_step {τ : Type}
    {dist : List Float64 → List Float64 → Distance → Float64Distance} {q : List Float64}
    {r : Nat → Row64 τ} {i : Nat} {nn : KNNTargetCollection τ} (inv : BestInv dist q r i nn)
    (hcontract : EarlyExitContract dist q (r i).UnsafeFloatFeatureValues) :
    BestInv dist q r (i + 1) (classifyStep64 dist q (r i) nn) := by
  obtain ⟨hk, hstate⟩ := inv
  refine ⟨by rw [classifyStep64_k]; exact hk, ?_⟩
  rcases hstate with ⟨hempty, hnone⟩ | ⟨m, d, hm, hDm, hdfin, hentries, hbest⟩
  · -- nothing held yet: the bound is +Inf
    have hcond : (nn.entries.length : Int) < nn.k := by rw [hempty, hk]; simp
    have hmax : nn.MaxDistance = Distance.unbounded := MaxDistance_of_lt nn hcond
    unfold classifyStep64
    rw [hmax]
    cases hD : dist q (r i).UnsafeFloatFeatureValues Distance.unbounded with
    | nan =>
        refine Or.inl ⟨hempty, fun j hj => ?_⟩
        by_cases hji : j = i
        · subst hji
          rintro ⟨d, hd, _⟩
          rw [hD] at hd
          cases hd
        · exact hnone j (by omega)
    | value x =>
        by_cases hx : x < Distance.unbounded
        · simp only [hx, if_true]
          rw [Insert_of_lt nn _ _ hcond, hempty]
          refine Or.inr ⟨i, x, Nat.lt_succ_self i, hD, hx, rfl, fun j hj d' hd' => ?_⟩
          by_cases hji : j = i
          · subst hji
            rw [hD] at hd'
            cases hd'
            exact Or.inr ⟨rfl, le_refl _⟩
          · have hnf := hnone j (by omega)
            have hd'inf : ¬ d' < Distance.unbounded := fun h => hnf ⟨d', hd', h⟩
            exact Or.inl (lt_of_lt_of_le hx (not_lt.mp hd'inf))
        · simp only [hx, if_false]
          refine Or.inl ⟨hempty, fun j hj => ?_⟩
          by_cases hji : j = i
          · subst hji
            rintro ⟨d, hd, hlt⟩
            rw [hD] at hd
            cases hd
            exact hx hlt
          · exact hnone j (by omega)
  · -- the entry of row `m` is held: the bound is its distance
    have hcond : ¬ (nn.entries.length : Int) < nn.k := by rw [hentries, hk]; simp
    have hlargest : largestDistance nn.entries = d := by rw [hentries]; rfl
    have hmax : nn.MaxDistance = d := by rw [MaxDistance_of_full nn hcond, hlargest]
    have hnew : ∀ d', dist q (r i).UnsafeFloatFeatureValues Distance.unbounded = .value d' →
        ¬ (∃ x, dist q (r i).UnsafeFloatFeatureValues d = .value x ∧ x < d) →
        d < d' ∨ (d = d' ∧ m ≤ i) := by
      intro d' hd' hnot
      rcases lt_trichotomy d d' with h | h | h
      · exact Or.inl h
      · exact Or.inr ⟨h, le_of_lt hm⟩
      · exact absurd ⟨d', (hcontract d d' h).2 hd', h⟩ hnot
    unfold classifyStep64
    rw [hmax]
    cases hx : dist q (r i).UnsafeFloatFeatureValues d with
    | nan =>
        refine Or.inr ⟨m, d, Nat.lt_succ_of_lt hm, hDm, hdfin, hentries, fun j hj d' hd' => ?_⟩
        by_cases hji : j = i
        · subst hji
          exact hnew d' hd' (by rintro ⟨x, hx', _⟩; rw [hx] at hx'; cases hx')
        · exact hbest j (by omega) d' hd'
    | value x =>
        by_cases hxd : x < d
        · simp only [hxd, if_true]
          have hDi : dist q (r i).UnsafeFloatFeatureValues Distance.unbounded = .value x :=
            (hcontract d x hxd).1 hx
          rw [Insert_of_full_lt nn _ _ hcond (by rw [hlargest]; exact hxd), hentries]
          refine Or.inr ⟨i, x, Nat.lt_succ_self i, hDi, lt_trans hxd hdfin, by simp [evictWorst],
            fun j hj d' hd' => ?_⟩
          by_cases hji : j = i
          · subst hji
            rw [hDi] at hd'
            cases hd'
            exact Or.inr ⟨rfl, le_refl _⟩
          · rcases hbest j (by omega) d' hd' with h | ⟨h, _⟩
            · exact Or.inl (lt_trans hxd h)
            · exact Or.inl (h ▸ hxd)
        · simp only [hxd, if_false]
          refine Or.inr ⟨m, d, Nat.lt_succ_of_lt hm, hDm, hdfin, hentries,
            fun j hj d' hd' => ?_⟩
          by_cases hji : j = i
          · subst hji
            exact hnew d' hd' (by
              rintro ⟨x', hx', hlt⟩
              rw [hx] at hx'
              cases hx'
              exact hxd hlt)
          · exact hbest j (by omega) d' hd'

/-- The float64 loop with `k = 1` keeps `BestInv` and, when no row access fails, runs to the
end. -/
theorem classifyLoop64_best {τ : Type}
    (dist : List Float64 → List Float64 → Distance → Float64Distance) (td : Dataset64 τ)
    (q : List Float64) (r : Nat → Row64 τ) :
    ∀ (n i : Nat) (nn : KNNTargetCollection τ), BestInv dist q r i nn →
      (∀ j, i ≤ j → j < i + n → td.Row j = .ok (r j)) →
      (∀ j, i ≤ j → j < i + n → EarlyExitContract dist q (r j).UnsafeFloatFeatureValues) →
      ∃ nn', classifyLoop64 dist td q n i nn = .ok nn' ∧ BestInv dist q r (i + n) nn'
  | 0, _, nn, inv, _, _ => ⟨nn, rfl, inv⟩
  | n + 1, i, nn, inv, hrows, hcontract => by
      rw [classifyLoop64_succ dist td q n i nn (r i) (hrows i (le_refl _) (by omega))]
      obtain ⟨nn', hloop, inv'⟩ := classifyLoop64_best dist td q r n (i + 1) _
        (BestInv_step inv (hcontract i (le_refl _) (by omega)))
        (fun j h1 h2 => hrows j (by omega) (by omega))
        (fun j h1 h2 => hcontract j (by omega) (by omega))
      have hidx : i + 1 + n = i + (n + 1) := by omega
      exact ⟨nn', hloop, hidx ▸ inv'⟩

/-- For a classifier with `k ≥ 1` and a query that passes validation, the float64 scan is the
loop over all the rows, started from the empty collection. -/
theorem classifyScan64_eq_loop {τ : Type}
    (dist : List Float64 → List Float64 → Distance → Float64Distance)
    (c : kNNClassifier64 τ) (td : Dataset64 τ) (testRow : Row64 τ) (hk : 1 ≤ c.k)
    (htd : c.trainingData = some td) (hfeat : testRow.NumFeatures = td.NumFeatures)
    (hfloat : testRow.AllFeaturesFloats = true) :
    classifyScan64 dist c testRow
      = classifyLoop64 dist td testRow.UnsafeFloatFeatureValues td.NumRows 0
          { k := c.k, entries := [] } := by
  have hnot : ¬ c.k < 1 := by omega
  simp [classifyScan64, htd, hfeat, hfloat, NewKNNTargetCollection, hnot]

/-- With `k = 1`, a valid query, no row-access failure, a distance function that meets the
early-exit contract and at least one row whose computed distance is finite, the float64 scan
ends with the single entry of the lowest-index row among those of least computed distance, and
`Classify64` returns that row's label. -/
theorem Classify64_k_one {τ : Type} [DecidableEq τ]
    (dist : List Float64 → List Float64 → Distance → Float64Distance)
    (c : kNNClassifier64 τ) (td : Dataset64 τ) (testRow : Row64 τ) (r : Nat → Row64 τ)
    (hk : c.k = 1) (htd : c.trainingData = some td)
    (hfeat : testRow.NumFeatures = td.NumFeatures) (hfloat : testRow.AllFeaturesFloats = true)
    (hrows : ∀ i, i < td.NumRows → td.Row i = .ok (r i))
    (hcontract : ∀ i, i < td.NumRows →
      EarlyExitContract dist testRow.UnsafeFloatFeatureValues (r i).UnsafeFloatFeatureValues)
    (hfin : ∃ j, j < td.NumRows ∧
      (dist testRow.UnsafeFloatFeatureValues (r j).UnsafeFloatFeatureValues
        Distance.unbounded).IsFinite) :
    ∃ (i : Nat) (d : Distance), i < td.NumRows ∧
      dist testRow.UnsafeFloatFeatureValues (r i).UnsafeFloatFeatureValues Distance.unbounded
        = .value d ∧
      d < Distance.unbounded ∧
      (∀ j, j < td.NumRows → ∀ d', dist testRow.UnsafeFloatFeatureValues
        (r j).UnsafeFloatFeatureValues Distance.unbounded = .value d' → d ≤ d') ∧
      (∀ j, j < i → ∀ d', dist testRow.UnsafeFloatFeatureValues
        (r j).UnsafeFloatFeatureValues Distance.unbounded = .value d' → d < d') ∧
      classifyScan64 dist c testRow = .ok { k := 1, entries := [⟨(r i).Target, d⟩] } ∧
      Classify64 dist c testRow = .ok (r i).Target := by
  have hscan := classifyScan64_eq_loop dist c td testRow (by omega) htd hfeat hfloat
  rw [hk] at hscan
  obtain ⟨nn, hloop, inv⟩ := classifyLoop64_best dist td testRow.UnsafeFloatFeatureValues r
    td.NumRows 0 _ (BestInv_start dist _ r) (fun j _ hj => hrows j (by omega))
    (fun j _ hj => hcontract j (by omega))
  rw [Nat.zero_add] at inv
  obtain ⟨hnk, hstate⟩ := inv
  rcases hstate with ⟨_, hnone⟩ | ⟨m, d, hm, hDm, hdfin, hentries, hbest⟩
  · obtain ⟨j, hj, hjfin⟩ := hfin
    exact absurd hjfin (hnone j hj)
  · have hnn : nn = { k := 1, entries := [⟨(r m).Target, d⟩] } := by
      cases nn with
      | mk k entries =>
          simp only at hnk hentries
          rw [hnk, hentries]
    have hscan' : classifyScan64 dist c testRow
        = .ok { k := 1, entries := [⟨(r m).Target, d⟩] } := by
      rw [hscan, hloop, hnn]
    refine ⟨m, d, hm, hDm, hdfin, ?_, ?_, hscan', ?_⟩
    · intro j hj d' hd'
      rcases hbest j hj d' hd' with h | ⟨h, _⟩
      · exact le_of_lt h
      · exact le_of_eq h
    · intro j hj d' hd'
      rcases hbest j (by omega) d' hd' with h | ⟨_, h⟩
      · exact h
      · omega
    · simp only [Classify64, hscan']
      exact Vote_singleton 1 _

end classifier

namespace classifier

open knnutilities

theorem dataset64OfRows_Row {τ : Type} (numFeatures : Int) (allFloats : Bool)
    (rows : List (Row64 τ)) (fallback : Row64 τ) (i : Nat) (h : i < rows.length) :
    (dataset64OfRows numFeatures allFloats rows).Row i = .ok (rowAt64 rows fallback i) := by
  simp [dataset64OfRows, rowAt64, List.getElem?_eq_getElem h]

theorem toDataset64_Row {τ : Type} (td : Dataset τ) (i : Nat) (row : Row τ)
    (h : td.Row i = .ok row) : (toDataset64 td).Row i = .ok (toRow64 row) := by
  simp only [toDataset64, h]

/-- On a dataset of finite values, the float64 loop with `Euclidean64` is the loop of
`Classify`. -/
theorem classifyLoop64_finite {τ : Type} (td : Dataset τ) (q : List ℚ) :
    ∀ (n i : Nat) (nn : KNNTargetCollection τ),
      classifyLoop64 Euclidean64 (toDataset64 td) (q.map Float64.finite) n i nn
        = classifyLoop td q n i nn
  | 0, _, _ => rfl
  | n + 1, i, nn => by
      cases hrow : td.Row i with
      | error e => simp only [classifyLoop64, classifyLoop, toDataset64, hrow]
      | ok row =>
          rw [classifyLoop64_succ Euclidean64 (toDataset64 td) _ n i nn (toRow64 row)
            (toDataset64_Row td i row hrow)]
          have hstep : classifyStep64 Euclidean64 (q.map Float64.finite) (toRow64 row) nn
              = classifyStep q row nn := by
            unfold classifyStep64 classifyStep
            have : (toRow64 row).UnsafeFloatFeatureValues
                = row.UnsafeFloatFeatureValues.map Float64.finite := rfl
            rw [this, Euclidean64_finite]
            rfl
          rw [hstep, classifyLoop64_finite td q n (i + 1)]
          simp only [classifyLoop, hrow, classifyStep]
          split <;> rfl

/-- On finite values, `Classify64` with `Euclidean64` is `Classify`: the exact-arithmetic
definitions are the float64 ones restricted to finite values. -/
theorem Classify64_finite {τ : Type} [DecidableEq τ] (c : kNNClassifier τ) (testRow : Row τ) :
    classifyScan64 Euclidean64 (toClassifier64 c) (toRow64 testRow) = classifyScan c testRow ∧
    Classify64 Euclidean64 (toClassifier64 c) (toRow64 testRow) = Classify c testRow := by
  have hscan : classifyScan64 Euclidean64 (toClassifier64 c) (toRow64 testRow)
      = classifyScan c testRow := by
    unfold classifyScan64 classifyScan toClassifier64
    cases c.trainingData with
    | none => rfl
    | some td =>
        simp only [Option.map_some']
        show (if testRow.NumFeatures ≠ td.NumFeatures then _ else _) = _
        split
        · rfl
        · show (if (!testRow.AllFeaturesFloats) = true then _ else _) = _
          split
          · rfl
          · cases NewKNNTargetCollection c.k with
            | error e => rfl
            | ok nn => exact classifyLoop64_finite td _ _ _ _
  refine ⟨hscan, ?_⟩
  unfold Classify64 Classify
  rw [hscan]

end classifier

/-! ## Classification on float64 values -/

namespace classifier

open knnutilities

/-- Counterexample to C3 as stated: the training set holds the single row `([NaN], A)`, which
`Train` accepts; with `k = 1` and the query `[0]` the computed distance is NaN, the guard
`distance < MaxDistance()` is false, nothing is inserted, and `Classify` returns the
empty-collection error instead of the label of a training row. -/
theorem Classify64_nearest_counterexample :
    Train64 ({ k := 1, trainingData := none } : kNNClassifier64 String) nanDataset
      = ({ k := 1, trainingData := some nanDataset }, none) ∧
    nanDataset.Row 0 = .ok (floatRow64 "A" [Float64.nan]) ∧
    Euclidean64 [Float64.finite 0] [Float64.nan] Distance.unbounded = .nan ∧
    Classify64 Euclidean64 { k := 1, trainingData := some nanDataset }
        (floatRow64 "?" [Float64.finite 0]) = .error .EmptyCollection ∧
    ∀ label : String,
      Classify64 Euclidean64 { k := 1, trainingData := some nanDataset }
        (floatRow64 "?" [Float64.finite 0]) ≠ .ok label := by
  have h : Classify64 Euclidean64 { k := 1, trainingData := some nanDataset }
      (floatRow64 "?" [Float64.finite 0]) = .error .EmptyCollection := by
    simp [Classify64, classifyScan64, nanDataset, nanRows, dataset64OfRows, floatRow64,
      NewKNNTargetCollection, classifyLoop64, KNNTargetCollection.MaxDistance, Euclidean64,
      euclidean64From, Float64.sub, Float64.square, Float64.add, Float64.sqrt,
      Float64Distance.ge, KNNTargetCollection.Vote]
  refine ⟨rfl, rfl, ?_, h, fun label => ?_⟩
  · simp [Euclidean64, euclidean64From, Float64.sub, Float64.square, Float64.add,
      Float64.sqrt, Float64Distance.ge]
  · rw [h]
    exact fun hc => by cases hc

/-- C3 (amended): with `k = 1`, a trained classifier, a valid query (matching feature count,
numeric features, no row-access failure), a float64 distance function that meets the early-exit
contract, and at least one training row whose computed distance is finite (neither NaN nor
+Inf), `Classify` returns the label of a training row whose computed distance to the query is
least among the training rows whose computed distance is not NaN, namely the lowest-index row
attaining that least value (every earlier row is strictly farther or at distance NaN). -/
theorem Classify64_nearest {τ : Type} [DecidableEq τ]
    (dist : List Float64 → List Float64 → Distance → Float64Distance)
    (c : kNNClassifier64 τ) (td : Dataset64 τ) (testRow : Row64 τ) (r : Nat → Row64 τ)
    (hk : c.k = 1) (htd : c.trainingData = some td)
    (hfeat : testRow.NumFeatures = td.NumFeatures) (hfloat : testRow.AllFeaturesFloats = true)
    (hrows : ∀ i, i < td.NumRows → td.Row i = .ok (r i))
    (hcontract : ∀ i, i < td.NumRows →
      EarlyExitContract dist testRow.UnsafeFloatFeatureValues (r i).UnsafeFloatFeatureValues)
    (hfin : ∃ j, j < td.NumRows ∧
      (dist testRow.UnsafeFloatFeatureValues (r j).UnsafeFloatFeatureValues
        Distance.unbounded).IsFinite) :
    ∃ (i : Nat) (d : Distance), i < td.NumRows ∧
      dist testRow.UnsafeFloatFeatureValues (r i).UnsafeFloatFeatureValues Distance.unbounded
        = .value d ∧
      (∀ j, j < td.NumRows → ∀ d', dist testRow.UnsafeFloatFeatureValues
        (r j).UnsafeFloatFeatureValues Distance.unbounded = .value d' → d ≤ d') ∧
      (∀ j, j < i → ∀ d', dist testRow.UnsafeFloatFeatureValues
        (r j).UnsafeFloatFeatureValues Distance.unbounded = .value d' → d < d') ∧
      Classify64 dist c testRow = .ok (r i).Target := by
  obtain ⟨i, d, hi, hD, _, hmin, hfirst, _, hres⟩ :=
    Classify64_k_one dist c td testRow r hk htd hfeat hfloat hrows hcontract hfin
  exact ⟨i, d, hi, hD, hmin, hfirst, hres⟩

end classifier

namespace classifier

open knnutilities

theorem scenarioDataset64_Row (i : Nat) (hi : i < 3) :
    scenarioDataset64.Row i = .ok (scenarioRow64 i) :=
  toDataset64_Row scenarioDataset i _ (datasetOfRows_Row 2 true scenarioRows _ i hi)

theorem scenarioRow64_contract (q : List ℚ) (i : Nat) :
    EarlyExitContract Euclidean64 (q.map Float64.finite)
      (scenarioRow64 i).UnsafeFloatFeatureValues :=
  Euclidean64_contract q _

theorem scenarioRow64_finite (q : List ℚ) (i : Nat) :
    (Euclidean64 (q.map Float64.finite) (scenarioRow64 i).UnsafeFloatFeatureValues
      Distance.unbounded).IsFinite :=
  ⟨_, Euclidean64_finite q _ _, by rw [Euclidean_unbounded]; exact Distance.sqrt_lt_unbounded _⟩

/-- Witness of C3 (amended): the spec's scenario, `k = 1` and the query `[0.9, 0.9]`, with the
modelled `Euclidean64`; the result is `A`. -/
theorem Classify64_nearest_witness :
    (∃ (i : Nat) (d : Distance), i < 3 ∧
      Euclidean64 [Float64.finite (9 / 10), Float64.finite (9 / 10)]
          (scenarioRow64 i).UnsafeFloatFeatureValues Distance.unbounded = .value d ∧
      (∀ j, j < 3 → ∀ d', Euclidean64 [Float64.finite (9 / 10), Float64.finite (9 / 10)]
          (scenarioRow64 j).UnsafeFloatFeatureValues Distance.unbounded = .value d' → d ≤ d') ∧
      (∀ j, j < i → ∀ d', Euclidean64 [Float64.finite (9 / 10), Float64.finite (9 / 10)]
          (scenarioRow64 j).UnsafeFloatFeatureValues Distance.unbounded = .value d' → d < d') ∧
      Classify64 Euclidean64 { k := 1, trainingData := some scenarioDataset64 }
          (toRow64 (floatRow "?" [9 / 10, 9 / 10])) = .ok (scenarioRow64 i).Target) ∧
    Classify64 Euclidean64 { k := 1, trainingData := some scenarioDataset64 }
        (toRow64 (floatRow "?" [9 / 10, 9 / 10])) = .ok "A" :=
  ⟨Classify64_nearest Euclidean64 { k := 1, trainingData := some scenarioDataset64 }
      scenarioDataset64 (toRow64 (floatRow "?" [9 / 10, 9 / 10])) scenarioRow64 rfl rfl rfl rfl
      scenarioDataset64_Row (fun i _ => scenarioRow64_contract [9 / 10, 9 / 10] i)
      ⟨0, by decide, scenarioRow64_finite [9 / 10, 9 / 10] 0⟩,
    by
      have h := (Classify64_finite ({ k := 1, trainingData := some scenarioDataset } :
        kNNClassifier String) (floatRow "?" [9 / 10, 9 / 10])).2
      have h' : Classify ({ k := 1, trainingData := some scenarioDataset } :
          kNNClassifier String) (floatRow "?" [9 / 10, 9 / 10]) = .ok "A" := by
        norm_num [Classify, classifyScan, scenarioDataset, scenarioRows, datasetOfRows,
          floatRow, NewKNNTargetCollection, classifyLoop, KNNTargetCollection.MaxDistance,
          KNNTargetCollection.Insert, Euclidean, euclideanFrom, Distance.sqrt_lt_unbounded,
          Distance.not_unbounded_le_sqrt, Distance.not_unbounded_lt, Distance.max_sqrt_sqrt,
          Distance.le_unbounded, Distance.sqrt_lt_sqrt_iff, Distance.sqrt_le_sqrt_iff,
          largestDistance, evictWorst, KNNTargetCollection.Vote, majorityLabel, countLabel]
      exact h.trans h'⟩

/-- C2 (amended): with `k = 1`, a non-empty training set, a float64 distance function that
meets the early-exit contract, returns no negative value and gives distance zero from a finite
vector to itself, and a valid query of finite values whose feature vector equals that of
training row `i`: `Classify` returns the label of the lowest-index training row whose computed
distance to the query is 0, a row `m ≤ i`; it returns the label of row `i` whenever every row
before `i` at computed distance 0 carries the same label as row `i`. -/
theorem Classify64_identical {τ : Type} [DecidableEq τ]
    (dist : List Float64 → List Float64 → Distance → Float64Distance)
    (c : kNNClassifier64 τ) (td : Dataset64 τ) (testRow : Row64 τ) (r : Nat → Row64 τ)
    (i : Nat) (hk : c.k = 1) (htd : c.trainingData = some td)
    (hfeat : testRow.NumFeatures = td.NumFeatures) (hfloat : testRow.AllFeaturesFloats = true)
    (hrows : ∀ j, j < td.NumRows → td.Row j = .ok (r j)) (hi : i < td.NumRows)
    (heq : testRow.UnsafeFloatFeatureValues = (r i).UnsafeFloatFeatureValues)
    (hfinite : ∀ x ∈ testRow.UnsafeFloatFeatureValues, ∃ v, x = Float64.finite v)
    (hcontract : ∀ j, j < td.NumRows →
      EarlyExitContract dist testRow.UnsafeFloatFeatureValues (r j).UnsafeFloatFeatureValues)
    (hself : SelfDistanceZero dist) (hnonneg : NonNegativeDistance dist) :
    (∃ m, m ≤ i ∧
      dist testRow.UnsafeFloatFeatureValues (r m).UnsafeFloatFeatureValues Distance.unbounded
        = .value (Distance.sqrt 0) ∧
      (∀ j, j < m →
        dist testRow.UnsafeFloatFeatureValues (r j).UnsafeFloatFeatureValues
          Distance.unbounded ≠ .value (Distance.sqrt 0)) ∧
      Classify64 dist c testRow = .ok (r m).Target) ∧
    ((∀ j, j < i →
        dist testRow.UnsafeFloatFeatureValues (r j).UnsafeFloatFeatureValues
          Distance.unbounded = .value (Distance.sqrt 0) → (r j).Target = (r i).Target) →
      Classify64 dist c testRow = .ok (r i).Target) := by
  have hDi : dist testRow.UnsafeFloatFeatureValues (r i).UnsafeFloatFeatureValues
      Distance.unbounded = .value (Distance.sqrt 0) := by
    rw [← heq]
    exact hself _ hfinite
  obtain ⟨m, d, _, hDm, _, hmin, hfirst, _, hres⟩ :=
    Classify64_k_one dist c td testRow r hk htd hfeat hfloat hrows hcontract
      ⟨i, hi, _, hDi, Distance.sqrt_lt_unbounded 0⟩
  have hd : d = Distance.sqrt 0 :=
    le_antisymm (hmin i hi _ hDi) (hnonneg _ _ _ _ hDm)
  rw [hd] at hDm hfirst
  have hmi : m ≤ i := by
    by_contra hc
    exact lt_irrefl _ (hfirst i (not_le.mp hc) _ hDi)
  refine ⟨⟨m, hmi, hDm, fun j hj h0 => lt_irrefl _ (hfirst j hj _ h0), hres⟩, fun hdup => ?_⟩
  rcases Nat.lt_or_eq_of_le hmi with hlt | rfl
  · rw [hres, hdup m hlt hDm]
  · exact hres

/-- Witness of C2 (amended): `k = 1` on the scenario rows, the query being row 2, `[1, 1]`,
with the modelled `Euclidean64`. -/
theorem Classify64_identical_witness :
    ∃ m, m ≤ 2 ∧
      Euclidean64 [Float64.finite 1, Float64.finite 1]
          (scenarioRow64 m).UnsafeFloatFeatureValues Distance.unbounded
        = .value (Distance.sqrt 0) ∧
      (∀ j, j < m →
        Euclidean64 [Float64.finite 1, Float64.finite 1]
          (scenarioRow64 j).UnsafeFloatFeatureValues Distance.unbounded
          ≠ .value (Distance.sqrt 0)) ∧
      Classify64 Euclidean64 { k := 1, trainingData := some scenarioDataset64 }
          (toRow64 (floatRow "?" [1, 1])) = .ok (scenarioRow64 m).Target :=
  (Classify64_identical Euclidean64 { k := 1, trainingData := some scenarioDataset64 }
    scenarioDataset64 (toRow64 (floatRow "?" [1, 1])) scenarioRow64 2 rfl rfl rfl rfl
    scenarioDataset64_Row (by decide) rfl
    (fun x hx => by
      obtain ⟨v, _, rfl⟩ := List.mem_map.mp hx
      exact ⟨v, rfl⟩)
    (fun j _ => scenarioRow64_contract [1, 1] j) Euclidean64_self Euclidean64_nonneg).1

/-- Counterexample to C4 as stated: the training rows are `([0], A)`, `([+Inf], B)`,
`([NaN], B)` and `k = 3 ≥ N`; for the query `[0]` the computed distances of rows 1 and 2 are
+Inf and NaN, the guard `distance < MaxDistance()` is false for both, and the scan retains only
row 0: `Classify` returns `A`, while the vote over the labels of all three rows is `B`. -/
theorem Classify64_all_retained_counterexample :
    specialValueDataset.NumRows = 3 ∧
    (Train64 ({ k := 3, trainingData := none } : kNNClassifier64 String)
      specialValueDataset).2 = none ∧
    classifyScan64 Euclidean64 { k := 3, trainingData := some specialValueDataset }
        (floatRow64 "?" [Float64.finite 0])
      = .ok { k := 3, entries := [⟨"A", Distance.sqrt 0⟩] } ∧
    Classify64 Euclidean64 { k := 3, trainingData := some specialValueDataset }
        (floatRow64 "?" [Float64.finite 0]) = .ok "A" ∧
    ({ k := 3,
       entries := (List.range 3).map (fun i => rowEntry64 Euclidean64 [Float64.finite 0]
         (rowAt64 specialValueRows (floatRow64 "?" []) i)) } :
      KNNTargetCollection String).Vote = .ok "B" := by
  have hscan : classifyScan64 Euclidean64 { k := 3, trainingData := some specialValueDataset }
      (floatRow64 "?" [Float64.finite 0])
      = .ok { k := 3, entries := [⟨"A", Distance.sqrt 0⟩] } := by
    norm_num [classifyScan64, specialValueDataset, specialValueRows, dataset64OfRows,
      floatRow64, NewKNNTargetCollection, classifyLoop64, KNNTargetCollection.MaxDistance,
      KNNTargetCollection.Insert, Euclidean64, euclidean64From, Float64.sub, Float64.square,
      Float64.add, Float64.sqrt, Float64Distance.ge, Distance.sqrt_lt_unbounded,
      Distance.not_unbounded_le_sqrt, Distance.not_unbounded_lt, Distance.le_unbounded]
  refine ⟨rfl, rfl, hscan, ?_, rfl⟩
  simp only [Classify64, hscan]
  rfl

/-- C4 (amended): when `k` is at least the number `N` of training rows, for a valid query with
no row-access failure and a float64 distance function whose value, computed in full, is finite
(neither NaN nor +Inf) for every training row, the scan ends with the entries of all `N`
training rows, in row order, and `Classify` returns the `Vote` over that collection of all the
rows. -/
theorem Classify64_all_retained {τ : Type} [DecidableEq τ]
    (dist : List Float64 → List Float64 → Distance → Float64Distance)
    (c : kNNClassifier64 τ) (td : Dataset64 τ) (testRow : Row64 τ) (r : Nat → Row64 τ)
    (hk : 1 ≤ c.k) (htd : c.trainingData = some td) (hNk : (td.NumRows : Int) ≤ c.k)
    (hfeat : testRow.NumFeatures = td.NumFeatures) (hfloat : testRow.AllFeaturesFloats = true)
    (hrows : ∀ i, i < td.NumRows → td.Row i = .ok (r i))
    (hfin : ∀ i, i < td.NumRows →
      (dist testRow.UnsafeFloatFeatureValues (r i).UnsafeFloatFeatureValues
        Distance.unbounded).IsFinite) :
    classifyScan64 dist c testRow
      = .ok { k := c.k,
              entries := (List.range td.NumRows).map
                (fun i => rowEntry64 dist testRow.UnsafeFloatFeatureValues (r i)) } ∧
    Classify64 dist c testRow
      = ({ k := c.k,
           entries := (List.range td.NumRows).map
             (fun i => rowEntry64 dist testRow.UnsafeFloatFeatureValues (r i)) } :
          KNNTargetCollection τ).Vote := by
  have hscan := classifyScan64_eq_loop dist c td testRow hk htd hfeat hfloat
  have hloop := classifyLoop64_all dist td testRow.UnsafeFloatFeatureValues r c.k td.NumRows 0
    (by rw [Nat.zero_add]; exact hNk) (fun j _ hj => hrows j (by omega))
    (fun j _ hj => hfin j (by omega))
  rw [Nat.zero_add] at hloop
  have hscan' := hscan.trans hloop
  refine ⟨hscan', ?_⟩
  simp only [Classify64, hscan']

/-- Witness of C4 (amended): the spec's scenario with `k = 3` and the modelled `Euclidean64`;
all three rows are retained and the vote is `A`. -/
theorem Classify64_all_retained_witness :
    (classifyScan64 Euclidean64 { k := 3, trainingData := some scenarioDataset64 }
        (toRow64 (floatRow "?" [9 / 10, 9 / 10]))
      = .ok { k := 3,
              entries := (List.range 3).map
                (fun i => rowEntry64 Euclidean64
                  [Float64.finite (9 / 10), Float64.finite (9 / 10)] (scenarioRow64 i)) } ∧
    Classify64 Euclidean64 { k := 3, trainingData := some scenarioDataset64 }
        (toRow64 (floatRow "?" [9 / 10, 9 / 10]))
      = ({ k := 3,
           entries := (List.range 3).map
             (fun i => rowEntry64 Euclidean64
               [Float64.finite (9 / 10), Float64.finite (9 / 10)] (scenarioRow64 i)) } :
          KNNTargetCollection String).Vote) ∧
    ({ k := 3,
       entries := (List.range 3).map
         (fun i => rowEntry64 Euclidean64
           [Float64.finite (9 / 10), Float64.finite (9 / 10)] (scenarioRow64 i)) } :
      KNNTargetCollection String).Vote = .ok "A" :=
  ⟨Classify64_all_retained Euclidean64 { k := 3, trainingData := some scenarioDataset64 }
      scenarioDataset64 (toRow64 (floatRow "?" [9 / 10, 9 / 10])) scenarioRow64 (by decide) rfl
      (by decide) rfl rfl scenarioDataset64_Row
      (fun i _ => scenarioRow64_finite [9 / 10, 9 / 10] i),
    rfl⟩

/-- Counterexample to C17 as stated: the training set holds the single row `([+Inf], A)`, which
`Train` accepts; with `k = 1` and the query `[0]` the computed distance is +Inf, which is not
strictly less than the bound +Inf of the empty collection, so nothing is inserted and `Classify`
fails with the empty-collection error. -/
theorem Classify64_not_empty_counterexample :
    (Train64 ({ k := 1, trainingData := none } : kNNClassifier64 String) infDataset).2 = none ∧
    Euclidean64 [Float64.finite 0] [Float64.posInf] Distance.unbounded
      = .value Distance.unbounded ∧
    classifyScan64 Euclidean64
        (Train64 ({ k := 1, trainingData := none } : kNNClassifier64 String) infDataset).1
        (floatRow64 "?" [Float64.finite 0])
      = .ok { k := 1, entries := [] } ∧
    Classify64 Euclidean64
        (Train64 ({ k := 1, trainingData := none } : kNNClassifier64 String) infDataset).1
        (floatRow64 "?" [Float64.finite 0])
      = .error .EmptyCollection := by
  have hd : Euclidean64 [Float64.finite 0] [Float64.posInf] Distance.unbounded
      = .value Distance.unbounded := by
    simp [Euclidean64, euclidean64From, Float64.sub, Float64.square, Float64.add,
      Float64.sqrt, Float64Distance.ge]
  have hscan : classifyScan64 Euclidean64
      (Train64 ({ k := 1, trainingData := none } : kNNClassifier64 String) infDataset).1
      (floatRow64 "?" [Float64.finite 0]) = .ok { k := 1, entries := [] } := by
    simp [classifyScan64, Train64, infDataset, infRows, dataset64OfRows, floatRow64,
      NewKNNTargetCollection, classifyLoop64, KNNTargetCollection.MaxDistance, hd]
  refine ⟨rfl, hd, hscan, ?_⟩
  simp only [Classify64, hscan]
  rfl

/-- C17 (amended): an empty neighbour collection cannot occur at vote time when some training
row has a finite computed distance.  For a classifier with `k ≥ 1` on which `Train` has just
succeeded, a query that passes validation with no row-access failure, and a float64 distance
function whose value, computed in full, is finite (neither NaN nor +Inf) for at least one
training row: a row with a finite computed distance is inserted into the empty collection, the
collection left by the scan is not empty, and `Classify` returns a label, not the
empty-collection error. -/
theorem Classify64_not_empty {τ : Type} [DecidableEq τ]
    (dist : List Float64 → List Float64 → Distance → Float64Distance)
    (c : kNNClassifier64 τ) (td : Dataset64 τ) (testRow : Row64 τ) (r : Nat → Row64 τ)
    (hk : 1 ≤ c.k) (htrain : (Train64 c td).2 = none)
    (hfeat : testRow.NumFeatures = td.NumFeatures) (hfloat : testRow.AllFeaturesFloats = true)
    (hrows : ∀ i, i < td.NumRows → td.Row i = .ok (r i))
    (hfin : ∃ j, j < td.NumRows ∧
      (dist testRow.UnsafeFloatFeatureValues (r j).UnsafeFloatFeatureValues
        Distance.unbounded).IsFinite) :
    (∀ row : Row64 τ,
      (dist testRow.UnsafeFloatFeatureValues row.UnsafeFloatFeatureValues
        Distance.unbounded).IsFinite →
      (classifyStep64 dist testRow.UnsafeFloatFeatureValues row
        { k := c.k, entries := [] }).entries ≠ []) ∧
    (∃ (nn : KNNTargetCollection τ) (label : τ),
      classifyScan64 dist (Train64 c td).1 testRow = .ok nn ∧ nn.entries ≠ [] ∧
      Classify64 dist (Train64 c td).1 testRow = .ok label) ∧
    Classify64 dist (Train64 c td).1 testRow ≠ .error .EmptyCollection := by
  have htr : (Train64 c td).1.trainingData = some td ∧ (Train64 c td).1.k = c.k := by
    unfold Train64 at htrain ⊢
    cases hflag : td.AllFeaturesFloats <;> by_cases hn : td.NumRows = 0 <;>
      simp [hflag, hn] at htrain ⊢
  obtain ⟨htd, hkeq⟩ := htr
  have hscan := classifyScan64_eq_loop dist (Train64 c td).1 td testRow
    (by rw [hkeq]; exact hk) htd hfeat hfloat
  obtain ⟨j, hj, hjfin⟩ := hfin
  obtain ⟨nn, hloop, hne⟩ := classifyLoop64_ne_nil dist td testRow.UnsafeFloatFeatureValues r
    td.NumRows 0 { k := (Train64 c td).1.k, entries := [] } (fun m _ hm => hrows m (by omega))
    (Or.inr ⟨by rw [hkeq]; exact hk, j, Nat.zero_le _, by omega, hjfin⟩)
  obtain ⟨e, es, hes⟩ := List.exists_cons_of_ne_nil hne
  have hres : Classify64 dist (Train64 c td).1 testRow = .ok (majorityLabel e es) := by
    simp only [Classify64, hscan, hloop, KNNTargetCollection.Vote, hes]
  refine ⟨fun row hrow => classifyStep64_of_empty dist _ row _ hk rfl hrow,
    ⟨nn, majorityLabel e es, hscan.trans hloop, hne, hres⟩, ?_⟩
  rw [hres]
  exact fun h => by cases h

/-- Witness of C17 (amended): a classifier with `k = 2` trained on the scenario dataset, with
the modelled `Euclidean64`. -/
theorem Classify64_not_empty_witness :
    Classify64 Euclidean64
        (Train64 ({ k := 2, trainingData := none } : kNNClassifier64 String)
          scenarioDataset64).1
        (toRow64 (floatRow "?" [9, 9]))
      ≠ .error .EmptyCollection :=
  (Classify64_not_empty Euclidean64 { k := 2, trainingData := none } scenarioDataset64
    (toRow64 (floatRow "?" [9, 9])) scenarioRow64 (by decide) rfl rfl rfl
    scenarioDataset64_Row ⟨0, by decide, scenarioRow64_finite [9, 9] 0⟩).2.2

end classifier

namespace classifier

open knnutilities

/-- Counterexample to C2 as stated: with `k = 1` and the training rows `([0], A)`, `([0], B)`,
the query `[0]` has the feature vector of training row 1, whose label is `B`, and `Classify`
returns `A`, the label of row 0; so it does on float64 values. -/
theorem Classify_identical_counterexample :
    NewKNNClassifier 1 = .ok ({ k := 1, trainingData := none } : kNNClassifier String) ∧
    Train ({ k := 1, trainingData := none } : kNNClassifier String) duplicateDataset
      = ({ k := 1, trainingData := some duplicateDataset }, none) ∧
    duplicateDataset.Row 1 = .ok (floatRow "B" [0]) ∧
    (floatRow "?" [0] : Row String).UnsafeFloatFeatureValues
      = (floatRow "B" [0] : Row String).UnsafeFloatFeatureValues ∧
    Classify { k := 1, trainingData := some duplicateDataset } (floatRow "?" [0]) = .ok "A" ∧
    Classify { k := 1, trainingData := some duplicateDataset } (floatRow "?" [0])
      ≠ .ok (floatRow "B" [0] : Row String).Target ∧
    Classify64 Euclidean64 (toClassifier64 { k := 1, trainingData := some duplicateDataset })
      (toRow64 (floatRow "?" [0])) = .ok "A" := by
  have h : Classify { k := 1, trainingData := some duplicateDataset } (floatRow "?" [0])
      = .ok "A" := by
    norm_num [Classify, classifyScan, duplicateDataset, duplicateRows, datasetOfRows, floatRow,
      NewKNNTargetCollection, classifyLoop, KNNTargetCollection.MaxDistance,
      KNNTargetCollection.Insert, Euclidean, euclideanFrom, Distance.sqrt_lt_unbounded,
      Distance.not_unbounded_le_sqrt, Distance.not_unbounded_lt, Distance.max_sqrt_sqrt,
      Distance.le_unbounded, Distance.sqrt_lt_sqrt_iff, Distance.sqrt_le_sqrt_iff,
      largestDistance, evictWorst, KNNTargetCollection.Vote, majorityLabel, countLabel]
  refine ⟨rfl, rfl, rfl, rfl, h, ?_, ?_⟩
  · rw [h]
    simp [floatRow]
  · exact (Classify64_finite _ _).2.trans h

end classifier
